import Mathlib

/-!
Verification development for the deno-serialport core: a shallow embedding of
the platform descriptor, the termios codec, the raw-mode configurator, the
syscall-bridge wrappers, the port-session lifecycle and the delimiter parser,
together with theorems settling the specification claims C1 through C10.

Conventions of the embedding:
* machine bytes and words are `Nat` with explicit `% 2 ^ w` where the source
  truncates; JavaScript 32-bit bitwise operators (`&`, `|`, `~`) are modelled
  on the unsigned 32-bit bit pattern (`land32`, `lor32`, `bnot32`);
* a raw byte buffer (`ArrayBuffer` + `DataView`/`Uint8Array`) is a total
  function `Nat → Nat` from offsets to byte values;
* fallible operations return `Except`; a thrown JavaScript error is a
  `Thrown` value recording the structured error code or the failing
  operation and its errno (the information the catch sites inspect);
* kernel interaction is modelled by an environment value fixing each
  syscall's outcome, and every operation also returns the list of syscalls
  it issued, in order.
-/

namespace SerialPort

deriving instance DecidableEq for Except

/-- The two supported platforms (src/utils/platform.ts `getPlatform`). -/
inductive Platform where
  | linux
  | darwin
deriving DecidableEq

/-! ### Flag tables (src/ffi/termios.ts) -/

/-- c_iflag bit IGNBRK. -/
def IGNBRK : Nat := 0x0001
/-- c_iflag bit BRKINT. -/
def BRKINT : Nat := 0x0002
/-- c_iflag bit PARMRK. -/
def PARMRK : Nat := 0x0008
/-- c_iflag bit ISTRIP. -/
def ISTRIP : Nat := 0x0020
/-- c_iflag bit INLCR. -/
def INLCR : Nat := 0x0040
/-- c_iflag bit IGNCR. -/
def IGNCR : Nat := 0x0080
/-- c_iflag bit ICRNL. -/
def ICRNL : Nat := 0x0100
/-- c_iflag bit IXON. -/
def IXON : Nat := 0x0400
/-- c_iflag bit IXANY. -/
def IXANY : Nat := 0x0800
/-- c_iflag bit IXOFF. -/
def IXOFF : Nat := 0x1000

/-- c_oflag bit OPOST. -/
def OPOST : Nat := 0x0001

/-- c_lflag bit ISIG. -/
def ISIG : Nat := 0x0001
/-- c_lflag bit ICANON. -/
def ICANON : Nat := 0x0002
/-- c_lflag bit ECHO. -/
def ECHO : Nat := 0x0008
/-- c_lflag bit ECHONL. -/
def ECHONL : Nat := 0x0040
/-- c_lflag bit IEXTEN. -/
def IEXTEN : Nat := 0x8000

/-- c_cc index VTIME (termios.ts `CC.VTIME`). -/
def VTIME : Nat := 5
/-- c_cc index VMIN (termios.ts `CC.VMIN`). -/
def VMIN : Nat := 6

/-- Platform-specific c_cflag constant CSIZE (termios.ts `getCFLAG`). -/
def CSIZE : Platform → Nat
  | .linux => 0x0030
  | .darwin => 0x0300

/-- Platform-specific c_cflag constant CS5. -/
def CS5 : Platform → Nat
  | .linux => 0x0000
  | .darwin => 0x0000

/-- Platform-specific c_cflag constant CS6. -/
def CS6 : Platform → Nat
  | .linux => 0x0010
  | .darwin => 0x0100

/-- Platform-specific c_cflag constant CS7. -/
def CS7 : Platform → Nat
  | .linux => 0x0020
  | .darwin => 0x0200

/-- Platform-specific c_cflag constant CS8. -/
def CS8 : Platform → Nat
  | .linux => 0x0030
  | .darwin => 0x0300

/-- Platform-specific c_cflag constant CSTOPB. -/
def CSTOPB : Platform → Nat
  | .linux => 0x0040
  | .darwin => 0x0400

/-- Platform-specific c_cflag constant CREAD. -/
def CREAD : Platform → Nat
  | .linux => 0x0080
  | .darwin => 0x0800

/-- Platform-specific c_cflag constant PARENB. -/
def PARENB : Platform → Nat
  | .linux => 0x0100
  | .darwin => 0x1000

/-- Platform-specific c_cflag constant PARODD. -/
def PARODD : Platform → Nat
  | .linux => 0x0200
  | .darwin => 0x2000

/-- Platform-specific c_cflag constant HUPCL. -/
def HUPCL : Platform → Nat
  | .linux => 0x0400
  | .darwin => 0x4000

/-- Platform-specific c_cflag constant CLOCAL. -/
def CLOCAL : Platform → Nat
  | .linux => 0x0800
  | .darwin => 0x8000

/-- Platform-specific c_cflag constant CRTSCTS. -/
def CRTSCTS : Platform → Nat
  | .linux => 0x80000000
  | .darwin => 0x00030000

/-- Linux-only c_cflag baud mask CBAUD. -/
def CBAUD : Nat := 0x100F

/-- Linux-only c_cflag mark/space parity bit CMSPAR. -/
def CMSPAR : Nat := 0x40000000

/-! ### JavaScript 32-bit bitwise operators

JavaScript `&`, `|` and `~` convert their operands to 32-bit integers
(truncating to the low 32 bits) and operate bitwise.  We model the results
on the unsigned 32-bit bit pattern, which carries exactly the same bits as
the signed JavaScript number. -/

/-- JavaScript `a & b` as an unsigned 32-bit bit pattern. -/
def land32 (a b : Nat) : Nat := (a % 2 ^ 32) &&& (b % 2 ^ 32)

/-- JavaScript `a | b` as an unsigned 32-bit bit pattern. -/
def lor32 (a b : Nat) : Nat := (a % 2 ^ 32) ||| (b % 2 ^ 32)

/-- JavaScript `~m` as an unsigned 32-bit bit pattern. -/
def bnot32 (m : Nat) : Nat := (2 ^ 32 - 1) ^^^ (m % 2 ^ 32)

/-! ### Errno values (src/ffi/types.ts `ERRNO`) -/

/-- `ERRNO.EAGAIN`: the Linux would-block errno, 11.  The source comments
note that macOS uses 35 for the same condition. -/
def ERRNO_EAGAIN : Nat := 11

/-- `ERRNO.EAGAIN_MACOS`: the Darwin would-block errno, 35; defined by the
source but never consulted by the read/write wrappers. -/
def ERRNO_EAGAIN_MACOS : Nat := 35

/-! ### Syscall-bridge read/write wrappers (src/ffi/libc.ts)

`read(fd, buf)` / `write(fd, buf)` call the kernel and, when the raw result
is -1, fetch errno; errno equal to `ERRNO.EAGAIN` (the constant 11) is
translated to a 0-byte result, every other errno is thrown.  The source
contains no platform branch here, so the `Platform` argument is unused by
the translation, exactly as in the code. -/

/-- The read wrapper: `rawResult` is what the kernel `read` returned and
`errno` the errno value it left behind.  `.error n` models the thrown
`Error("Read failed: errno n")`. -/
def readWrapper (_p : Platform) (rawResult : Int) (errno : Nat) : Except Nat Nat :=
  if rawResult = -1 then
    if errno = ERRNO_EAGAIN then .ok 0 else .error errno
  else .ok rawResult.toNat

/-- The write wrapper, identical in shape to the read wrapper. -/
def writeWrapper (_p : Platform) (rawResult : Int) (errno : Nat) : Except Nat Nat :=
  if rawResult = -1 then
    if errno = ERRNO_EAGAIN then .ok 0 else .error errno
  else .ok rawResult.toNat

/-! ### Byte buffers and the termios codec (src/ffi/termios.ts) -/

/-- A raw byte buffer, indexed by byte offset. -/
abbrev Buf : Type := Nat → Nat

/-- The all-zero buffer, i.e. a fresh `ArrayBuffer` (`createTermiosBuffer`). -/
def zeroBuf : Buf := fun _ => 0

/-- Store one byte (`Uint8Array` element assignment truncates to a byte). -/
def setByte (buf : Buf) (i v : Nat) : Buf :=
  fun j => if j = i then v % 256 else buf j

/-- Byte `k` of the little-endian representation of `v`. -/
def byteOf (v k : Nat) : Nat := v / 256 ^ k % 256

/-- `DataView.setUint32(off, v, littleEndian)`. -/
def writeU32LE (buf : Buf) (off v : Nat) : Buf :=
  setByte (setByte (setByte (setByte buf off (byteOf v 0))
    (off + 1) (byteOf v 1)) (off + 2) (byteOf v 2)) (off + 3) (byteOf v 3)

/-- `DataView.setBigUint64(off, v, littleEndian)`. -/
def writeU64LE (buf : Buf) (off v : Nat) : Buf :=
  setByte (setByte (setByte (setByte (setByte (setByte (setByte (setByte buf
    off (byteOf v 0)) (off + 1) (byteOf v 1)) (off + 2) (byteOf v 2))
    (off + 3) (byteOf v 3)) (off + 4) (byteOf v 4)) (off + 5) (byteOf v 5))
    (off + 6) (byteOf v 6)) (off + 7) (byteOf v 7)

/-- `DataView.getUint32(off, littleEndian)`. -/
def readU32LE (buf : Buf) (off : Nat) : Nat :=
  buf off + 2 ^ 8 * buf (off + 1) + 2 ^ 16 * buf (off + 2) + 2 ^ 24 * buf (off + 3)

/-- `DataView.getBigUint64(off, littleEndian)`. -/
def readU64LE (buf : Buf) (off : Nat) : Nat :=
  buf off + 2 ^ 8 * buf (off + 1) + 2 ^ 16 * buf (off + 2) + 2 ^ 24 * buf (off + 3) +
    2 ^ 32 * buf (off + 4) + 2 ^ 40 * buf (off + 5) + 2 ^ 48 * buf (off + 6) +
    2 ^ 56 * buf (off + 7)

/-- `Uint8Array.set(src, off)`: store a run of bytes starting at `off`. -/
def writeBytes (buf : Buf) (off : Nat) : List Nat → Buf
  | [] => buf
  | b :: bs => writeBytes (setByte buf off b) (off + 1) bs

/-- `Uint8Array.slice(off, off + n)`: read a run of `n` bytes from `off`. -/
def readBytes (buf : Buf) (off : Nat) : Nat → List Nat
  | 0 => []
  | n + 1 => buf off :: readBytes buf (off + 1) n

/-- The decoded in-memory form of the kernel termios structure
(termios.ts `interface Termios`).  `c_line` is meaningful on Linux only;
the Darwin decoder leaves it 0 (the source leaves it `undefined`). -/
structure Termios where
  c_iflag : Nat
  c_oflag : Nat
  c_cflag : Nat
  c_lflag : Nat
  c_line : Nat
  c_cc : List Nat
  c_ispeed : Nat
  c_ospeed : Nat
deriving DecidableEq

/-- `parseTermios` (termios.ts): decode a termios buffer, per platform
layout.  Linux: four LE 32-bit words at 0/4/8/12, the line-discipline byte
at 16, 19 control characters at 17..35, LE 32-bit speeds at 36/40.
Darwin (64-bit mode): four LE 64-bit words at 0/8/16/24, 20 control
characters at 32..51, 4 unmodeled padding bytes at 52..55, LE 64-bit
speeds at 56/64. -/
def parseTermios (p : Platform) (buffer : Buf) : Termios :=
  match p with
  | .darwin =>
    { c_iflag := readU64LE buffer 0
      c_oflag := readU64LE buffer 8
      c_cflag := readU64LE buffer 16
      c_lflag := readU64LE buffer 24
      c_line := 0
      c_cc := readBytes buffer 32 20
      c_ispeed := readU64LE buffer 56
      c_ospeed := readU64LE buffer 64 }
  | .linux =>
    { c_iflag := readU32LE buffer 0
      c_oflag := readU32LE buffer 4
      c_cflag := readU32LE buffer 8
      c_lflag := readU32LE buffer 12
      c_line := buffer 16
      c_cc := readBytes buffer 17 19
      c_ispeed := readU32LE buffer 36
      c_ospeed := readU32LE buffer 40 }

/-- `writeTermios` (termios.ts): encode a termios structure into an
existing buffer, touching only the modeled byte regions. -/
def writeTermios (p : Platform) (termios : Termios) (buffer : Buf) : Buf :=
  match p with
  | .darwin =>
    writeU64LE (writeU64LE (writeBytes (writeU64LE (writeU64LE (writeU64LE
      (writeU64LE buffer 0 termios.c_iflag) 8 termios.c_oflag)
      16 termios.c_cflag) 24 termios.c_lflag) 32 termios.c_cc)
      56 termios.c_ispeed) 64 termios.c_ospeed
  | .linux =>
    writeU32LE (writeU32LE (writeBytes (setByte (writeU32LE (writeU32LE
      (writeU32LE (writeU32LE buffer 0 termios.c_iflag) 4 termios.c_oflag)
      8 termios.c_cflag) 12 termios.c_lflag) 16 termios.c_line)
      17 termios.c_cc) 36 termios.c_ispeed) 40 termios.c_ospeed

/-- The c_iflag bits cleared by `makeRaw`. -/
def rawInputMask : Nat :=
  IGNBRK ||| BRKINT ||| PARMRK ||| ISTRIP ||| INLCR ||| IGNCR ||| ICRNL ||| IXON

/-- The c_lflag bits cleared by `makeRaw`. -/
def rawLocalMask : Nat := ECHO ||| ECHONL ||| ICANON ||| ISIG ||| IEXTEN

/-- `makeRaw` (termios.ts): configure a termios structure for raw mode.
The source mutates in place; the model returns the updated structure. -/
def makeRaw (p : Platform) (t : Termios) : Termios :=
  { t with
    c_iflag := land32 t.c_iflag (bnot32 rawInputMask)
    c_oflag := land32 t.c_oflag (bnot32 OPOST)
    c_lflag := land32 t.c_lflag (bnot32 rawLocalMask)
    c_cflag := lor32 (land32 t.c_cflag (bnot32 (CSIZE p ||| PARENB p))) (CS8 p)
    c_cc := (t.c_cc.set VMIN 0).set VTIME 0 }

/-! ### Baud-rate table (termios.ts `baudRateMap` / platform.ts
`baudRateConstants`) -/

/-- The baud-rate table: portable rate paired with the platform code, as
`termios.ts baudRateMap` reads it from `platform.ts baudRateConstants`.
Linux codes are bit patterns — note the table's values for the three high
rates are 0x00010001/0x00010002/0x00010003 (not the 0x1001-style CFLAG
B-constants, which `getBaudRateValue` never consults); Darwin codes are
the literal rates. -/
def baudRateMap : Platform → List (Nat × Nat)
  | .linux =>
    [(0, 0x00000000), (50, 0x00000001), (75, 0x00000002), (110, 0x00000003),
     (134, 0x00000004), (150, 0x00000005), (200, 0x00000006),
     (300, 0x00000007), (600, 0x00000008), (1200, 0x00000009),
     (1800, 0x0000000A), (2400, 0x0000000B), (4800, 0x0000000C),
     (9600, 0x0000000D), (19200, 0x0000000E), (38400, 0x0000000F),
     (57600, 0x00010001), (115200, 0x00010002), (230400, 0x00010003)]
  | .darwin =>
    [(0, 0), (50, 50), (75, 75), (110, 110), (134, 134), (150, 150),
     (200, 200), (300, 300), (600, 600), (1200, 1200), (1800, 1800),
     (2400, 2400), (4800, 4800), (9600, 9600), (19200, 19200),
     (38400, 38400), (57600, 57600), (115200, 115200), (230400, 230400)]

/-- `getBaudRateValue` (termios.ts): table lookup; for a rate absent from
the table, Darwin falls back to the literal rate while Linux throws
`Error("Unsupported baud rate: ...")`. -/
def getBaudRateValue (p : Platform) (baudRate : Nat) : Except String Nat :=
  match (baudRateMap p).lookup baudRate with
  | some v => .ok v
  | none =>
    if p = .darwin then .ok baudRate
    else .error "Unsupported baud rate"

/-! ### Structured errors (src/core/types.ts) and thrown values -/

/-- `SerialPortErrorCode` (src/core/types.ts). -/
inductive ErrCode where
  | UNKNOWN
  | ACCESS_DENIED
  | PORT_NOT_FOUND
  | INVALID_BAUD_RATE
  | INVALID_CONFIGURATION
  | PORT_CLOSED
  | DISCONNECTED
  | SYSTEM_ERROR
  | OPERATION_NOT_SUPPORTED
deriving DecidableEq

/-- The libc wrapper whose failure message a thrown error carries. -/
inductive SysOp where
  | openOp
  | closeOp
  | readOp
  | writeOp
  | tcgetattrOp
  | tcsetattrOp
  | tcflushOp
  | tcdrainOp
  | tcsendbreakOp
  | ioctlOp
  | cfsetispeedOp
  | cfsetospeedOp
deriving DecidableEq

/-- A thrown JavaScript error, as far as the catch sites can observe it:
either a structured `SerialPortError` with its code, a wrapper error whose
message is "<operation> failed: errno <n>" (src/ffi/libc.ts), a
`cfsetispeed failed`/`cfsetospeed failed` error carrying no errno, or the
`Unsupported baud rate` error from `getBaudRateValue`. -/
inductive Thrown where
  | serialErr (code : ErrCode)
  | sysErr (op : SysOp) (errno : Nat)
  | cfsetErr (op : SysOp)
  | unsupportedBaud (rate : Nat)
deriving DecidableEq

/-- ioctl request codes used by the session (src/ffi/types.ts `IOCTL`). -/
inductive IoctlReq where
  | TIOCEXCL
  | TIOCNXCL
  | TIOCMGET
  | TIOCMSET
deriving DecidableEq

/-- One kernel call issued through the syscall bridge.  `sysClose` records
the descriptor being closed. -/
inductive Syscall where
  | sysOpen
  | sysClose (fd : Nat)
  | sysRead
  | sysWrite
  | sysTcgetattr
  | sysTcsetattr
  | sysTcflush (queue : Nat)
  | sysTcdrain
  | sysTcsendbreak
  | sysIoctl (req : IoctlReq)
  | sysCfsetispeed
  | sysCfsetospeed
deriving DecidableEq

/-- Decide whether the decimal representation of `n` starts with the
decimal representation of `d`.  The catch sites test
`error.message.includes('errno <d>')`; the message ends with
"errno <n>" for the actual errno `n` (and contains no other occurrence of
the word errno), so the substring test succeeds exactly when the decimal
digits of `d` are a prefix of those of `n`. -/
def decStarts (n d : Nat) : Bool :=
  (List.range 10).any fun k => n / 10 ^ k == d

/-! ### Port session (src/core/serialport.ts) -/

/-- Parity requested in the configuration (the five values accepted by
`validateOptions`). -/
inductive Parity where
  | parityNone
  | parityEven
  | parityOdd
  | parityMark
  | paritySpace
deriving DecidableEq

/-- The defaulted option record held by a `SerialPort` instance
(src/core/types.ts `SerialPortOptions` after the constructor applies
defaults).  The device path is treated as an opaque atom and omitted. -/
structure Options where
  baudRate : Nat
  dataBits : Nat
  stopBits : Nat
  parity : Parity
  rtscts : Bool
  xon : Bool
  xoff : Bool
  xany : Bool
  hupcl : Bool
  lock : Bool
  highWaterMark : Nat
deriving DecidableEq

/-- The session fields the claims observe: the file descriptor (or null),
the `isOpen` flag, and the saved pre-open termios buffer (or null). -/
structure SessionState where
  fd : Option Nat
  isOpen : Bool
  originalTermios : Option Buf

/-- `SerialPort.validateOptions`: baud rate via `getBaudRateValue`, then
data bits in {5,6,7,8}, stop bits in {1,2}, parity in the allowed list.
The parity membership test always passes here because `Parity` ranges over
exactly the five allowed values; note it does not consult the platform. -/
def validateOptions (p : Platform) (o : Options) : Except Thrown Unit :=
  match getBaudRateValue p o.baudRate with
  | .error _ => .error (.serialErr .INVALID_BAUD_RATE)
  | .ok _ =>
    if o.dataBits = 5 ∨ o.dataBits = 6 ∨ o.dataBits = 7 ∨ o.dataBits = 8 then
      if o.stopBits = 1 ∨ o.stopBits = 2 then .ok ()
      else .error (.serialErr .INVALID_CONFIGURATION)
    else .error (.serialErr .INVALID_CONFIGURATION)

/-- The parity step of `SerialPort.configurePort`: the `switch` on
`options.parity`.  Mark and space parity set CMSPAR on Linux and throw
`SerialPortError(..., INVALID_CONFIGURATION)` on any other platform. -/
def parityStep (p : Platform) (parity : Parity) (t : Termios) : Except Thrown Termios :=
  match parity with
  | .parityNone => .ok { t with c_cflag := land32 t.c_cflag (bnot32 (PARENB p)) }
  | .parityEven =>
    .ok { t with c_cflag := land32 (lor32 t.c_cflag (PARENB p)) (bnot32 (PARODD p)) }
  | .parityOdd =>
    .ok { t with c_cflag := lor32 (lor32 t.c_cflag (PARENB p)) (PARODD p) }
  | .parityMark =>
    if p = .linux then
      .ok { t with c_cflag := lor32 (lor32 (lor32 t.c_cflag (PARENB p)) (PARODD p)) CMSPAR }
    else .error (.serialErr .INVALID_CONFIGURATION)
  | .paritySpace =>
    if p = .linux then
      .ok { t with c_cflag := lor32 (land32 (lor32 t.c_cflag (PARENB p)) (bnot32 (PARODD p))) CMSPAR }
    else .error (.serialErr .INVALID_CONFIGURATION)

/-- The data-bits step of `configurePort`: clear CSIZE, then the `switch`
on `options.dataBits` (no default case: any other value sets no size bit). -/
def dataBitsStep (p : Platform) (dataBits : Nat) (t : Termios) : Termios :=
  let t := { t with c_cflag := land32 t.c_cflag (bnot32 (CSIZE p)) }
  match dataBits with
  | 5 => { t with c_cflag := lor32 t.c_cflag (CS5 p) }
  | 6 => { t with c_cflag := lor32 t.c_cflag (CS6 p) }
  | 7 => { t with c_cflag := lor32 t.c_cflag (CS7 p) }
  | 8 => { t with c_cflag := lor32 t.c_cflag (CS8 p) }
  | _ => t

/-- The pure portion of `SerialPort.configurePort`: starting from the
decoded current attributes, apply `makeRaw` and then layer the requested
configuration, in source order (baud rate, data bits, stop bits, parity,
hardware flow control, software flow control, CREAD, CLOCAL, HUPCL).
On Linux the baud code is masked into c_cflag and mirrored into both speed
fields; on Darwin the structure is left alone here (the speeds are set via
`cfsetispeed`/`cfsetospeed` on the encoded buffer afterwards). -/
def applyConfig (p : Platform) (o : Options) (t0 : Termios) : Except Thrown Termios :=
  let t := makeRaw p t0
  match getBaudRateValue p o.baudRate with
  | .error _ => .error (.unsupportedBaud o.baudRate)
  | .ok baudValue =>
    let t :=
      if p = .darwin then t
      else { t with
        c_cflag := lor32 (land32 t.c_cflag (bnot32 CBAUD)) baudValue
        c_ispeed := baudValue
        c_ospeed := baudValue }
    let t := dataBitsStep p o.dataBits t
    let t :=
      if o.stopBits = 2 then { t with c_cflag := lor32 t.c_cflag (CSTOPB p) }
      else { t with c_cflag := land32 t.c_cflag (bnot32 (CSTOPB p)) }
    match parityStep p o.parity t with
    | .error e => .error e
    | .ok t =>
      let t :=
        if o.rtscts then { t with c_cflag := lor32 t.c_cflag (CRTSCTS p) }
        else { t with c_cflag := land32 t.c_cflag (bnot32 (CRTSCTS p)) }
      let t :=
        if o.xon ∨ o.xoff then
          let t := { t with c_iflag := lor32 t.c_iflag (IXON ||| IXOFF) }
          if o.xany then { t with c_iflag := lor32 t.c_iflag IXANY } else t
        else { t with c_iflag := land32 t.c_iflag (bnot32 (IXON ||| IXOFF ||| IXANY)) }
      let t := { t with c_cflag := lor32 t.c_cflag (CREAD p) }
      let t := { t with c_cflag := lor32 t.c_cflag (CLOCAL p) }
      let t :=
        if o.hupcl then { t with c_cflag := lor32 t.c_cflag (HUPCL p) }
        else { t with c_cflag := land32 t.c_cflag (bnot32 (HUPCL p)) }
      .ok t

/-- The kernel-side outcomes fixed for one `open()` attempt: the result of
the device `open`, of the exclusive-lock ioctl, of the two `tcgetattr`
calls (with the bytes they deliver), of the two Darwin `cfset*speed`
calls, of `tcsetattr` and of `tcflush`.  `some errno` means the call
fails with that errno; `none` means it succeeds. -/
structure OpenEnv where
  openResult : Except Nat Nat
  lockResult : Option Nat
  snapshotResult : Option Nat
  snapshotBytes : Buf
  configGetResult : Option Nat
  configBytes : Buf
  cfsetispeedOk : Bool
  cfsetospeedOk : Bool
  setattrResult : Option Nat
  flushResult : Option Nat

/-- An `OpenEnv` in which every kernel call succeeds, the descriptor is 3
and both delivered buffers are all zero. -/
def allOkEnv : OpenEnv :=
  { openResult := .ok 3
    lockResult := none
    snapshotResult := none
    snapshotBytes := zeroBuf
    configGetResult := none
    configBytes := zeroBuf
    cfsetispeedOk := true
    cfsetospeedOk := true
    setattrResult := none
    flushResult := none }

/-- FLUSH.TCIOFLUSH (src/ffi/types.ts). -/
def TCIOFLUSH : Nat := 2

/-- Whether a configuration computation succeeded. -/
def isOkConfig : Except Thrown Termios → Bool
  | .ok _ => true
  | .error _ => false

/-- The c_cflag of a successful configuration computation (0 on error). -/
def cflagOf : Except Thrown Termios → Nat
  | .ok t => t.c_cflag
  | .error _ => 0

/-- `SerialPort.configurePort` with its kernel calls: `tcgetattr`, the
pure attribute computation, `writeTermios`, on Darwin `cfsetispeed` and
`cfsetospeed`, then `tcsetattr(TCSANOW)` and `tcflush(TCIOFLUSH)`.
Returns the syscalls issued in order and the outcome.  The guard mirrors
`if (this.fd === null) throw PORT_CLOSED`. -/
def configurePort (p : Platform) (o : Options) (fd : Option Nat) (env : OpenEnv) :
    List Syscall × Except Thrown Unit :=
  match fd with
  | none => ([], .error (.serialErr .PORT_CLOSED))
  | some _ =>
    match env.configGetResult with
    | some n => ([.sysTcgetattr], .error (.sysErr .tcgetattrOp n))
    | none =>
      match applyConfig p o (parseTermios p env.configBytes) with
      | .error e => ([.sysTcgetattr], .error e)
      | .ok _ =>
        if p = .darwin then
          if env.cfsetispeedOk then
            if env.cfsetospeedOk then
              match env.setattrResult with
              | some n =>
                ([.sysTcgetattr, .sysCfsetispeed, .sysCfsetospeed, .sysTcsetattr],
                  .error (.sysErr .tcsetattrOp n))
              | none =>
                match env.flushResult with
                | some n =>
                  ([.sysTcgetattr, .sysCfsetispeed, .sysCfsetospeed, .sysTcsetattr,
                    .sysTcflush TCIOFLUSH], .error (.sysErr .tcflushOp n))
                | none =>
                  ([.sysTcgetattr, .sysCfsetispeed, .sysCfsetospeed, .sysTcsetattr,
                    .sysTcflush TCIOFLUSH], .ok ())
            else
              ([.sysTcgetattr, .sysCfsetispeed, .sysCfsetospeed],
                .error (.cfsetErr .cfsetospeedOp))
          else ([.sysTcgetattr, .sysCfsetispeed], .error (.cfsetErr .cfsetispeedOp))
        else
          match env.setattrResult with
          | some n => ([.sysTcgetattr, .sysTcsetattr], .error (.sysErr .tcsetattrOp n))
          | none =>
            match env.flushResult with
            | some n =>
              ([.sysTcgetattr, .sysTcsetattr, .sysTcflush TCIOFLUSH],
                .error (.sysErr .tcflushOp n))
            | none =>
              ([.sysTcgetattr, .sysTcsetattr, .sysTcflush TCIOFLUSH], .ok ())

/-- The error translation in `open()`'s catch block: a message containing
"errno 2" maps to PORT_NOT_FOUND, else one containing "errno 13" maps to
ACCESS_DENIED, anything else is rethrown unchanged. -/
def remapOpenError (t : Thrown) : Thrown :=
  match t with
  | .sysErr op n =>
    if decStarts n 2 then .serialErr .PORT_NOT_FOUND
    else if decStarts n 13 then .serialErr .ACCESS_DENIED
    else .sysErr op n
  | other => other

/-- The tail of `open()`'s catch block: close the descriptor if one is
held (ignoring any close failure), null the `fd` field, and rethrow the
(possibly remapped) error. -/
def openCatch (s : SessionState) (fdNow : Option Nat) (trace : List Syscall)
    (t : Thrown) : SessionState × List Syscall × Option Thrown :=
  match fdNow with
  | some g => ({ s with fd := none }, trace ++ [.sysClose g], some (remapOpenError t))
  | none => ({ s with fd := none }, trace, some (remapOpenError t))

/-- `SerialPort.open()`: no-op when already open; otherwise open the
device, optionally acquire the exclusive lock (a denial closes the
descriptor, nulls `fd` and throws ACCESS_DENIED from the inner handler),
snapshot the current attributes into `originalTermios`, run
`configurePort`, and set `isOpen`.  Any error reaching the outer catch
closes the descriptor if held, nulls `fd` and rethrows through
`remapOpenError`.  Returns the final state, the syscall trace and the
error, if one propagates. -/
def openPort (p : Platform) (o : Options) (env : OpenEnv) (s : SessionState) :
    SessionState × List Syscall × Option Thrown :=
  if s.isOpen then (s, [], none)
  else
    match env.openResult with
    | .error n => openCatch s s.fd [.sysOpen] (.sysErr .openOp n)
    | .ok fd =>
      let s1 := { s with fd := some fd }
      if o.lock ∧ env.lockResult.isSome then
        ({ s1 with fd := none }, [.sysOpen, .sysIoctl .TIOCEXCL, .sysClose fd],
          some (.serialErr .ACCESS_DENIED))
      else
        let tr1 : List Syscall :=
          if o.lock then [.sysOpen, .sysIoctl .TIOCEXCL] else [.sysOpen]
        match env.snapshotResult with
        | some n =>
          openCatch { s1 with originalTermios := some zeroBuf } (some fd)
            (tr1 ++ [.sysTcgetattr]) (.sysErr .tcgetattrOp n)
        | none =>
          let s2 := { s1 with originalTermios := some env.snapshotBytes }
          match configurePort p o (some fd) env with
          | (tr2, .error e) => openCatch s2 (some fd) (tr1 ++ tr2) e
          | (tr2, .ok _) => ({ s2 with isOpen := true }, tr1 ++ tr2, none)

/-- The kernel-side outcome of a single read or write attempt: the raw
syscall result and the errno left behind, plus (for reads) the bytes the
kernel deposited. -/
structure IOAttempt where
  raw : Int
  errno : Nat
  data : List Nat

/-- `SerialPort.read(size?)`: on a non-open session throw PORT_CLOSED
before any syscall; otherwise issue one non-blocking read into a buffer of
`min size highWaterMark` (or `highWaterMark`) bytes, translate the result
through the read wrapper, and map a 0-byte result to an empty array.  An
errno thrown by the wrapper propagates as the wrapper's Error. -/
def readPort (p : Platform) (o : Options) (s : SessionState) (att : IOAttempt)
    (size : Option Nat) : List Syscall × Except Thrown (List Nat) :=
  if s.isOpen = false ∨ s.fd = none then
    ([], .error (.serialErr .PORT_CLOSED))
  else
    let cap := match size with
      | some n => min n o.highWaterMark
      | none => o.highWaterMark
    ([.sysRead],
      match readWrapper p att.raw att.errno with
      | .error n => .error (.sysErr .readOp n)
      | .ok 0 => .ok []
      | .ok bytesRead => .ok ((att.data.take cap).take bytesRead))

/-- The retry loop of `SerialPort.write`: one entry of `attempts` per
kernel write call.  A 0-byte (would-block) result sleeps and retries; a
positive result advances; a thrown errno propagates.  The result is
`some totalWritten` on completion and `none` when the supplied attempts
run out with bytes still pending — modelling the loop still busy-polling.
The per-call chunk slicing (`WRITE_CHUNK_SIZE`) does not affect any
modelled observable and is not reproduced. -/
def writeLoop (p : Platform) (attempts : List IOAttempt) (remaining acc : Nat) :
    List Syscall × Except Thrown (Option Nat) :=
  match remaining with
  | 0 => ([], .ok (some acc))
  | _ + 1 =>
    match attempts with
    | [] => ([], .ok none)
    | a :: rest =>
      match writeWrapper p a.raw a.errno with
      | .error n => ([.sysWrite], .error (.sysErr .writeOp n))
      | .ok written =>
        let tail := writeLoop p rest (remaining - written) (acc + written)
        (.sysWrite :: tail.1, tail.2)

/-- `SerialPort.write(data)`: PORT_CLOSED guard, then the retry loop. -/
def writePort (p : Platform) (s : SessionState) (attempts : List IOAttempt)
    (data : List Nat) : List Syscall × Except Thrown (Option Nat) :=
  if s.isOpen = false ∨ s.fd = none then
    ([], .error (.serialErr .PORT_CLOSED))
  else writeLoop p attempts data.length 0

/-- The flush direction argument of `SerialPort.flush`. -/
inductive FlushDir where
  | input
  | output
  | both
deriving DecidableEq

/-- The FLUSH queue selector for a direction (src/ffi/types.ts `FLUSH`). -/
def flushQueue : FlushDir → Nat
  | .input => 0
  | .output => 1
  | .both => 2

/-- `SerialPort.flush(direction)`: PORT_CLOSED guard, then one `tcflush`. -/
def flushPort (s : SessionState) (direction : FlushDir) (result : Option Nat) :
    List Syscall × Except Thrown Unit :=
  if s.isOpen = false ∨ s.fd = none then
    ([], .error (.serialErr .PORT_CLOSED))
  else
    ([.sysTcflush (flushQueue direction)],
      match result with
      | some n => .error (.sysErr .tcflushOp n)
      | none => .ok ())

/-- `SerialPort.drain()`: PORT_CLOSED guard, then one `tcdrain`. -/
def drainPort (s : SessionState) (result : Option Nat) :
    List Syscall × Except Thrown Unit :=
  if s.isOpen = false ∨ s.fd = none then
    ([], .error (.serialErr .PORT_CLOSED))
  else
    ([.sysTcdrain],
      match result with
      | some n => .error (.sysErr .tcdrainOp n)
      | none => .ok ())

/-- `SerialPort.sendBreak(duration)`: PORT_CLOSED guard, then one
`tcsendbreak`. -/
def sendBreakPort (s : SessionState) (result : Option Nat) :
    List Syscall × Except Thrown Unit :=
  if s.isOpen = false ∨ s.fd = none then
    ([], .error (.serialErr .PORT_CLOSED))
  else
    ([.sysTcsendbreak],
      match result with
      | some n => .error (.sysErr .tcsendbreakOp n)
      | none => .ok ())

/-- The modem-signal snapshot returned by `getSignals`. -/
structure Signals where
  cts : Bool
  dsr : Bool
  dcd : Bool
  ring : Bool
deriving DecidableEq

/-- TIOCM_DTR (src/ffi/types.ts `TIOCM`). -/
def TIOCM_DTR : Nat := 0x002
/-- TIOCM_RTS. -/
def TIOCM_RTS : Nat := 0x004
/-- TIOCM_CTS. -/
def TIOCM_CTS : Nat := 0x020
/-- TIOCM_DSR. -/
def TIOCM_DSR : Nat := 0x100
/-- TIOCM_CD. -/
def TIOCM_CD : Nat := 0x040
/-- TIOCM_RI. -/
def TIOCM_RI : Nat := 0x080

/-- The errno remapping shared by `getSignals`/`setSignals`: messages
containing "errno 25" (ENOTTY) or "errno 19" (ENODEV) become
OPERATION_NOT_SUPPORTED, everything else is rethrown. -/
def remapSignalsError (op : SysOp) (n : Nat) : Thrown :=
  if decStarts n 25 then .serialErr .OPERATION_NOT_SUPPORTED
  else if decStarts n 19 then .serialErr .OPERATION_NOT_SUPPORTED
  else .sysErr op n

/-- `SerialPort.getSignals()`: PORT_CLOSED guard; on Darwin, return the
all-false snapshot without any ioctl; on Linux, `ioctl(TIOCMGET)` and
decode the status bits, remapping ENOTTY/ENODEV.  The environment is the
ioctl outcome: the status word, or the errno it fails with. -/
def getSignalsPort (p : Platform) (s : SessionState) (mget : Except Nat Nat) :
    List Syscall × Except Thrown Signals :=
  if s.isOpen = false ∨ s.fd = none then
    ([], .error (.serialErr .PORT_CLOSED))
  else
    match p with
    | .darwin => ([], .ok { cts := false, dsr := false, dcd := false, ring := false })
    | .linux =>
      ([.sysIoctl .TIOCMGET],
        match mget with
        | .error n => .error (remapSignalsError .ioctlOp n)
        | .ok status =>
          .ok { cts := status &&& TIOCM_CTS ≠ 0
                dsr := status &&& TIOCM_DSR ≠ 0
                dcd := status &&& TIOCM_CD ≠ 0
                ring := status &&& TIOCM_RI ≠ 0 })

/-- The partial DTR/RTS request passed to `setSignals`. -/
structure SetSignalsReq where
  dtr : Option Bool
  rts : Option Bool
deriving DecidableEq

/-- `SerialPort.setSignals(signals)`: PORT_CLOSED guard; on Darwin return
silently without any ioctl; on Linux read-modify-write the modem bits via
`TIOCMGET`/`TIOCMSET`, remapping ENOTTY/ENODEV. -/
def setSignalsPort (p : Platform) (s : SessionState) (req : SetSignalsReq)
    (mget : Except Nat Nat) (msetResult : Option Nat) :
    List Syscall × Except Thrown Unit :=
  if s.isOpen = false ∨ s.fd = none then
    ([], .error (.serialErr .PORT_CLOSED))
  else
    match p with
    | .darwin => ([], .ok ())
    | .linux =>
      match mget with
      | .error n => ([.sysIoctl .TIOCMGET], .error (remapSignalsError .ioctlOp n))
      | .ok status =>
        let v := match req.dtr with
          | some true => lor32 status TIOCM_DTR
          | some false => land32 status (bnot32 TIOCM_DTR)
          | none => status
        let _v := match req.rts with
          | some true => lor32 v TIOCM_RTS
          | some false => land32 v (bnot32 TIOCM_RTS)
          | none => v
        ([.sysIoctl .TIOCMGET, .sysIoctl .TIOCMSET],
          match msetResult with
          | some n => .error (remapSignalsError .ioctlOp n)
          | none => .ok ())

/-! ### Delimiter parser (src/parsers/delimiter.ts with the helpers of
src/parsers/base.ts) -/

/-- The inner loop of `BaseParser.indexOf`: does the delimiter match the
buffer element-by-element starting at the current position? -/
def headMatches : List Nat → List Nat → Bool
  | [], _ => true
  | _ :: _, [] => false
  | d :: ds, b :: bs => d == b && headMatches ds bs

/-- The outer loop of `BaseParser.indexOf`: first position (from the
current one) at which the delimiter matches. -/
def indexOfCore (delim : List Nat) : List Nat → Option Nat
  | [] => none
  | b :: bs =>
    if headMatches delim (b :: bs) then some 0
    else (indexOfCore delim bs).map (· + 1)

/-- `BaseParser.indexOf(buffer, delimiter)`: -1 (here `none`) for an empty
delimiter or a buffer shorter than the delimiter, else the first match
position. -/
def indexOf (buffer delim : List Nat) : Option Nat :=
  if delim.length = 0 then none
  else if buffer.length < delim.length then none
  else indexOfCore delim buffer

/-- The emission loop of `DelimiterParser.processChunk`: while the buffer
contains the delimiter, slice off the prefix (through the delimiter when
`includeDelim`), emit it unless it is empty and delimiters are excluded,
and continue on the remainder.  Returns the emitted frames in order and
the final buffer. -/
def scanLoop (delim : List Nat) (includeDelim : Bool) (buffer : List Nat) :
    List (List Nat) × List Nat :=
  match _h : indexOf buffer delim with
  | none => ([], buffer)
  | some position =>
    let data :=
      if includeDelim then buffer.take (position + delim.length)
      else buffer.take position
    let out := scanLoop delim includeDelim (buffer.drop (position + delim.length))
    (if 0 < data.length ∨ includeDelim = true then data :: out.1 else out.1, out.2)
termination_by buffer.length
decreasing_by
  simp only [List.length_drop]
  unfold indexOf at _h
  split at _h
  · exact absurd _h (by simp)
  · split at _h
    · exact absurd _h (by simp)
    · omega

/-- `DelimiterParser.processChunk`: append the chunk to the buffer, fail
terminally when the buffer exceeds `maxBufferSize`, else run the emission
loop. -/
def processChunk (delim : List Nat) (includeDelim : Bool) (maxBufferSize : Nat)
    (buffer chunk : List Nat) : Except Unit (List (List Nat) × List Nat) :=
  let b := buffer ++ chunk
  if maxBufferSize < b.length then .error ()
  else .ok (scanLoop delim includeDelim b)

/-- Feed a sequence of chunks through `processChunk`, accumulating the
emitted frames; the parser state threaded through is the retained buffer. -/
def pushAll (delim : List Nat) (includeDelim : Bool) (maxBufferSize : Nat)
    (buffer : List Nat) : List (List Nat) → Except Unit (List (List Nat) × List Nat)
  | [] => .ok ([], buffer)
  | c :: cs =>
    match processChunk delim includeDelim maxBufferSize buffer c with
    | .error e => .error e
    | .ok (fs, b') =>
      match pushAll delim includeDelim maxBufferSize b' cs with
      | .error e => .error e
      | .ok (fs', b'') => .ok (fs ++ fs', b'')

/-- The code points of a string, as the byte list its UTF-8 ASCII encoding
produces (all strings in the claims are ASCII). -/
def strBytes (s : String) : List Nat := s.data.map Char.toNat

/-! ### Concrete values used as witness inputs -/

/-- A defaulted 9600-baud configuration. -/
def baseOpts : Options :=
  { baudRate := 9600, dataBits := 8, stopBits := 1, parity := .parityNone,
    rtscts := false, xon := false, xoff := false, xany := false,
    hupcl := true, lock := true, highWaterMark := 65536 }

/-- The defaulted configuration requesting mark parity. -/
def markOpts : Options := { baseOpts with parity := .parityMark }

/-- The defaulted configuration requesting space parity. -/
def spaceOpts : Options := { baseOpts with parity := .paritySpace }

/-- A freshly constructed (closed) session. -/
def closedSession : SessionState :=
  { fd := none, isOpen := false, originalTermios := none }

/-- A session that has completed `open()` with descriptor 3. -/
def openSession : SessionState :=
  { fd := some 3, isOpen := true, originalTermios := some zeroBuf }

/-- An `OpenEnv` in which everything succeeds except the exclusive-lock
ioctl, which fails with errno 16 (EBUSY). -/
def lockDeniedEnv : OpenEnv := { allOkEnv with lockResult := some 16 }

/-- A 19-byte control-character array. -/
def cc19Ex : List Nat :=
  [1, 2, 3, 4, 5, 6, 7, 8, 9, 10, 11, 12, 13, 14, 15, 16, 17, 18, 19]

/-- A 20-byte control-character array. -/
def cc20Ex : List Nat :=
  [1, 2, 3, 4, 5, 6, 7, 8, 9, 10, 11, 12, 13, 14, 15, 16, 17, 18, 19, 255]

/-- A concrete Linux termios value. -/
def exTermiosLinux : Termios :=
  { c_iflag := 0x12345678, c_oflag := 5, c_cflag := 0x89ABCDEF, c_lflag := 7,
    c_line := 200, c_cc := cc19Ex, c_ispeed := 0x1002, c_ospeed := 0x1002 }

/-- A concrete Darwin termios value. -/
def exTermiosDarwin : Termios :=
  { c_iflag := 0x123456789AB, c_oflag := 5, c_cflag := 0xFFFFFFFFFFFFFFFF,
    c_lflag := 7, c_line := 0, c_cc := cc20Ex, c_ispeed := 115200,
    c_ospeed := 115200 }

/-! ## Theorems -/

/-! ### Byte-buffer lemmas for the termios codec -/

/-- Pointwise value of `setByte`. -/
theorem setByte_at (buf : Buf) (i v j : Nat) :
    setByte buf i v j = if j = i then v % 256 else buf j := rfl

/-- Pointwise value of `writeBytes`. -/
theorem writeBytes_at : ∀ (l : List Nat) (buf : Buf) (off j : Nat),
    writeBytes buf off l j =
      if off ≤ j ∧ j < off + l.length then l.getD (j - off) 0 % 256 else buf j := by
  intro l
  induction l with
  | nil =>
    intro buf off j
    simp only [writeBytes, List.length_nil]
    rw [if_neg (by omega)]
  | cons b bs ih =>
    intro buf off j
    simp only [writeBytes, List.length_cons]
    rw [ih]
    by_cases h1 : off + 1 ≤ j ∧ j < off + 1 + bs.length
    · rw [if_pos h1, if_pos (by omega)]
      have h2 : j - off = (j - (off + 1)) + 1 := by omega
      rw [h2, List.getD_cons_succ]
    · rw [if_neg h1, setByte_at]
      by_cases h2 : j = off
      · subst h2
        rw [if_pos rfl, if_pos (by omega)]
        simp
      · rw [if_neg h2, if_neg (by omega)]

/-- `readBytes` as a map over a range of offsets. -/
theorem readBytes_at : ∀ (n : Nat) (buf : Buf) (off : Nat),
    readBytes buf off n = (List.range n).map fun k => buf (off + k) := by
  intro n
  induction n with
  | zero => intro buf off; simp [readBytes]
  | succ m ih =>
    intro buf off
    simp only [readBytes, ih, List.range_succ_eq_map, List.map_cons, List.map_map]
    refine congrArg₂ _ (congrArg buf (by omega)) (List.map_congr_left fun k _ => ?_)
    simp only [Function.comp_apply]
    exact congrArg buf (by omega)

/-- Reading beside a `setByte` sees the underlying buffer. -/
theorem setByte_out {buf : Buf} {i v j : Nat} (h : j ≠ i) : setByte buf i v j = buf j := by
  rw [setByte_at, if_neg h]

/-- Reading outside the 4 bytes of a `writeU32LE` sees the underlying buffer. -/
theorem writeU32LE_out {buf : Buf} {off v j : Nat} (h : j < off ∨ off + 4 ≤ j) :
    writeU32LE buf off v j = buf j := by
  simp only [writeU32LE, setByte_at]
  rw [if_neg (by omega), if_neg (by omega), if_neg (by omega), if_neg (by omega)]

/-- Reading outside the 8 bytes of a `writeU64LE` sees the underlying buffer. -/
theorem writeU64LE_out {buf : Buf} {off v j : Nat} (h : j < off ∨ off + 8 ≤ j) :
    writeU64LE buf off v j = buf j := by
  simp only [writeU64LE, setByte_at]
  iterate 8 rw [if_neg (by omega)]

/-- Reading outside the span of a `writeBytes` sees the underlying buffer. -/
theorem writeBytes_out {l : List Nat} {buf : Buf} {off j : Nat}
    (h : j < off ∨ off + l.length ≤ j) : writeBytes buf off l j = buf j := by
  rw [writeBytes_at, if_neg (by omega)]

/-- The four bytes a `writeU32LE` stores. -/
theorem writeU32LE_at0 {buf : Buf} {off v : Nat} :
    writeU32LE buf off v off = byteOf v 0 % 256 := by
  simp only [writeU32LE, setByte_at]
  rw [if_neg (by omega), if_neg (by omega), if_neg (by omega), if_pos trivial]

/-- Byte 1 of a `writeU32LE`. -/
theorem writeU32LE_at1 {buf : Buf} {off v : Nat} :
    writeU32LE buf off v (off + 1) = byteOf v 1 % 256 := by
  simp only [writeU32LE, setByte_at]
  rw [if_neg (by omega), if_neg (by omega), if_pos trivial]

/-- Byte 2 of a `writeU32LE`. -/
theorem writeU32LE_at2 {buf : Buf} {off v : Nat} :
    writeU32LE buf off v (off + 2) = byteOf v 2 % 256 := by
  simp only [writeU32LE, setByte_at]
  rw [if_neg (by omega), if_pos trivial]

/-- Byte 3 of a `writeU32LE`. -/
theorem writeU32LE_at3 {buf : Buf} {off v : Nat} :
    writeU32LE buf off v (off + 3) = byteOf v 3 % 256 := by
  simp only [writeU32LE, setByte_at]
  rw [if_pos trivial]

/-- Byte 0 of a `writeU64LE`. -/
theorem writeU64LE_at0 {buf : Buf} {off v : Nat} :
    writeU64LE buf off v off = byteOf v 0 % 256 := by
  simp only [writeU64LE, setByte_at]
  iterate 7 rw [if_neg (by omega)]
  rw [if_pos trivial]

/-- Byte 1 of a `writeU64LE`. -/
theorem writeU64LE_at1 {buf : Buf} {off v : Nat} :
    writeU64LE buf off v (off + 1) = byteOf v 1 % 256 := by
  simp only [writeU64LE, setByte_at]
  iterate 6 rw [if_neg (by omega)]
  rw [if_pos trivial]

/-- Byte 2 of a `writeU64LE`. -/
theorem writeU64LE_at2 {buf : Buf} {off v : Nat} :
    writeU64LE buf off v (off + 2) = byteOf v 2 % 256 := by
  simp only [writeU64LE, setByte_at]
  iterate 5 rw [if_neg (by omega)]
  rw [if_pos trivial]

/-- Byte 3 of a `writeU64LE`. -/
theorem writeU64LE_at3 {buf : Buf} {off v : Nat} :
    writeU64LE buf off v (off + 3) = byteOf v 3 % 256 := by
  simp only [writeU64LE, setByte_at]
  iterate 4 rw [if_neg (by omega)]
  rw [if_pos trivial]

/-- Byte 4 of a `writeU64LE`. -/
theorem writeU64LE_at4 {buf : Buf} {off v : Nat} :
    writeU64LE buf off v (off + 4) = byteOf v 4 % 256 := by
  simp only [writeU64LE, setByte_at]
  rw [if_neg (by omega), if_neg (by omega), if_neg (by omega), if_pos trivial]

/-- Byte 5 of a `writeU64LE`. -/
theorem writeU64LE_at5 {buf : Buf} {off v : Nat} :
    writeU64LE buf off v (off + 5) = byteOf v 5 % 256 := by
  simp only [writeU64LE, setByte_at]
  rw [if_neg (by omega), if_neg (by omega), if_pos trivial]

/-- Byte 6 of a `writeU64LE`. -/
theorem writeU64LE_at6 {buf : Buf} {off v : Nat} :
    writeU64LE buf off v (off + 6) = byteOf v 6 % 256 := by
  simp only [writeU64LE, setByte_at]
  rw [if_neg (by omega), if_pos trivial]

/-- Byte 7 of a `writeU64LE`. -/
theorem writeU64LE_at7 {buf : Buf} {off v : Nat} :
    writeU64LE buf off v (off + 7) = byteOf v 7 % 256 := by
  simp only [writeU64LE, setByte_at]
  rw [if_pos trivial]

/-- Encode-then-decode recovers every modeled field on the Linux layout. -/
theorem parse_write_linux (t : Termios) (buf : Buf)
    (h1 : t.c_iflag < 2 ^ 32) (h2 : t.c_oflag < 2 ^ 32) (h3 : t.c_cflag < 2 ^ 32)
    (h4 : t.c_lflag < 2 ^ 32) (h5 : t.c_line < 256) (h6 : t.c_cc.length = 19)
    (h7 : ∀ b ∈ t.c_cc, b < 256) (h8 : t.c_ispeed < 2 ^ 32)
    (h9 : t.c_ospeed < 2 ^ 32) :
    parseTermios .linux (writeTermios .linux t buf) = t := by
  obtain ⟨tif, tof, tcf, tlf, tline, tcc, tis, tos⟩ := t
  simp only at h1 h2 h3 h4 h5 h6 h7 h8 h9
  simp only [parseTermios, writeTermios, Termios.mk.injEq]
  refine ⟨?_, ?_, ?_, ?_, ?_, ?_, ?_, ?_⟩
  · -- c_iflag
    simp only [readU32LE]
    try simp (disch := omega) only [writeU32LE_out, writeBytes_out, setByte_out]
    simp only [writeU32LE_at0, writeU32LE_at1, writeU32LE_at2, writeU32LE_at3, byteOf]
    omega
  · -- c_oflag
    simp only [readU32LE]
    try simp (disch := omega) only [writeU32LE_out, writeBytes_out, setByte_out]
    simp only [writeU32LE_at0, writeU32LE_at1, writeU32LE_at2, writeU32LE_at3, byteOf]
    omega
  · -- c_cflag
    simp only [readU32LE]
    try simp (disch := omega) only [writeU32LE_out, writeBytes_out, setByte_out]
    simp only [writeU32LE_at0, writeU32LE_at1, writeU32LE_at2, writeU32LE_at3, byteOf]
    omega
  · -- c_lflag
    simp only [readU32LE]
    try simp (disch := omega) only [writeU32LE_out, writeBytes_out, setByte_out]
    simp only [writeU32LE_at0, writeU32LE_at1, writeU32LE_at2, writeU32LE_at3, byteOf]
    omega
  · -- c_line
    simp (disch := omega) only [writeU32LE_out, writeBytes_out]
    rw [setByte_at, if_pos rfl]
    omega
  · -- c_cc
    rw [readBytes_at]
    apply List.ext_getElem
    · simp [h6]
    · intro i hi1 hi2
      have hi : i < 19 := by simpa using hi1
      simp only [List.getElem_map, List.getElem_range]
      simp (disch := omega) only [writeU32LE_out]
      rw [writeBytes_at, if_pos (by omega)]
      have h17 : 17 + i - 17 = i := by omega
      rw [h17, List.getD_eq_getElem tcc 0 (by omega)]
      exact Nat.mod_eq_of_lt (h7 _ (List.getElem_mem _))
  · -- c_ispeed
    simp only [readU32LE]
    try simp (disch := omega) only [writeU32LE_out, writeBytes_out, setByte_out]
    simp only [writeU32LE_at0, writeU32LE_at1, writeU32LE_at2, writeU32LE_at3, byteOf]
    omega
  · -- c_ospeed
    simp only [readU32LE]
    try simp (disch := omega) only [writeU32LE_out, writeBytes_out, setByte_out]
    simp only [writeU32LE_at0, writeU32LE_at1, writeU32LE_at2, writeU32LE_at3, byteOf]
    omega

/-- Encode-then-decode recovers every modeled field on the Darwin layout
(the line discipline is not modeled there). -/
theorem parse_write_darwin (t : Termios) (buf : Buf)
    (g1 : t.c_iflag < 2 ^ 64) (g2 : t.c_oflag < 2 ^ 64) (g3 : t.c_cflag < 2 ^ 64)
    (g4 : t.c_lflag < 2 ^ 64) (g5 : t.c_cc.length = 20)
    (g6 : ∀ b ∈ t.c_cc, b < 256) (g7 : t.c_ispeed < 2 ^ 64)
    (g8 : t.c_ospeed < 2 ^ 64) :
    (parseTermios .darwin (writeTermios .darwin t buf)).c_iflag = t.c_iflag ∧
    (parseTermios .darwin (writeTermios .darwin t buf)).c_oflag = t.c_oflag ∧
    (parseTermios .darwin (writeTermios .darwin t buf)).c_cflag = t.c_cflag ∧
    (parseTermios .darwin (writeTermios .darwin t buf)).c_lflag = t.c_lflag ∧
    (parseTermios .darwin (writeTermios .darwin t buf)).c_cc = t.c_cc ∧
    (parseTermios .darwin (writeTermios .darwin t buf)).c_ispeed = t.c_ispeed ∧
    (parseTermios .darwin (writeTermios .darwin t buf)).c_ospeed = t.c_ospeed := by
  obtain ⟨tif, tof, tcf, tlf, tline, tcc, tis, tos⟩ := t
  simp only at g1 g2 g3 g4 g5 g6 g7 g8
  simp only [parseTermios, writeTermios]
  refine ⟨?_, ?_, ?_, ?_, ?_, ?_, ?_⟩
  · -- c_iflag
    simp only [readU64LE]
    try simp (disch := omega) only [writeU64LE_out, writeBytes_out]
    simp only [writeU64LE_at0, writeU64LE_at1, writeU64LE_at2, writeU64LE_at3,
      writeU64LE_at4, writeU64LE_at5, writeU64LE_at6, writeU64LE_at7, byteOf]
    omega
  · -- c_oflag
    simp only [readU64LE]
    try simp (disch := omega) only [writeU64LE_out, writeBytes_out]
    simp only [writeU64LE_at0, writeU64LE_at1, writeU64LE_at2, writeU64LE_at3,
      writeU64LE_at4, writeU64LE_at5, writeU64LE_at6, writeU64LE_at7, byteOf]
    omega
  · -- c_cflag
    simp only [readU64LE]
    try simp (disch := omega) only [writeU64LE_out, writeBytes_out]
    simp only [writeU64LE_at0, writeU64LE_at1, writeU64LE_at2, writeU64LE_at3,
      writeU64LE_at4, writeU64LE_at5, writeU64LE_at6, writeU64LE_at7, byteOf]
    omega
  · -- c_lflag
    simp only [readU64LE]
    try simp (disch := omega) only [writeU64LE_out, writeBytes_out]
    simp only [writeU64LE_at0, writeU64LE_at1, writeU64LE_at2, writeU64LE_at3,
      writeU64LE_at4, writeU64LE_at5, writeU64LE_at6, writeU64LE_at7, byteOf]
    omega
  · -- c_cc
    rw [readBytes_at]
    apply List.ext_getElem
    · simp [g5]
    · intro i hi1 hi2
      have hi : i < 20 := by simpa using hi1
      simp only [List.getElem_map, List.getElem_range]
      simp (disch := omega) only [writeU64LE_out]
      rw [writeBytes_at, if_pos (by omega)]
      have h32 : 32 + i - 32 = i := by omega
      rw [h32, List.getD_eq_getElem tcc 0 (by omega)]
      exact Nat.mod_eq_of_lt (g6 _ (List.getElem_mem _))
  · -- c_ispeed
    simp only [readU64LE]
    try simp (disch := omega) only [writeU64LE_out, writeBytes_out]
    simp only [writeU64LE_at0, writeU64LE_at1, writeU64LE_at2, writeU64LE_at3,
      writeU64LE_at4, writeU64LE_at5, writeU64LE_at6, writeU64LE_at7, byteOf]
    omega
  · -- c_ospeed
    simp only [readU64LE]
    try simp (disch := omega) only [writeU64LE_out, writeBytes_out]
    simp only [writeU64LE_at0, writeU64LE_at1, writeU64LE_at2, writeU64LE_at3,
      writeU64LE_at4, writeU64LE_at5, writeU64LE_at6, writeU64LE_at7, byteOf]
    omega

/-- The Linux encoder touches only bytes 0..43. -/
theorem write_frame_linux (t : Termios) (buf : Buf) (h6 : t.c_cc.length = 19) :
    ∀ j, 44 ≤ j → writeTermios .linux t buf j = buf j := by
  intro j hj
  simp only [writeTermios]
  simp (disch := omega) only [writeU32LE_out, writeBytes_out, setByte_out]

/-- The Darwin encoder leaves the padding bytes 52..55 unchanged. -/
theorem write_frame_darwin (t : Termios) (buf : Buf) (g5 : t.c_cc.length = 20) :
    ∀ j, 52 ≤ j → j < 56 → writeTermios .darwin t buf j = buf j := by
  intro j hj1 hj2
  simp only [writeTermios]
  simp (disch := omega) only [writeU64LE_out, writeBytes_out]

/-- C3: For every TerminalAttributes value, encoding with writeTermios and
decoding with parseTermios recovers every field the codec models (c_iflag,
c_oflag, c_cflag, c_lflag, c_line on Linux, c_cc, c_ispeed, c_ospeed), on
both the Linux (60-byte) and Darwin (72-byte) layouts; and bytes outside
the modeled regions — the Linux tail from offset 44 and notably Darwin's
padding at offsets 52..55 — are left unchanged by writeTermios, so a
decode-modify-encode cycle through a captured buffer preserves them
verbatim. -/
theorem termios_codec_roundtrip (t₁ : Termios) (buf₁ : Buf)
    (h1 : t₁.c_iflag < 2 ^ 32) (h2 : t₁.c_oflag < 2 ^ 32)
    (h3 : t₁.c_cflag < 2 ^ 32) (h4 : t₁.c_lflag < 2 ^ 32)
    (h5 : t₁.c_line < 256) (h6 : t₁.c_cc.length = 19)
    (h7 : ∀ b ∈ t₁.c_cc, b < 256) (h8 : t₁.c_ispeed < 2 ^ 32)
    (h9 : t₁.c_ospeed < 2 ^ 32)
    (t₂ : Termios) (buf₂ : Buf)
    (g1 : t₂.c_iflag < 2 ^ 64) (g2 : t₂.c_oflag < 2 ^ 64)
    (g3 : t₂.c_cflag < 2 ^ 64) (g4 : t₂.c_lflag < 2 ^ 64)
    (g5 : t₂.c_cc.length = 20) (g6 : ∀ b ∈ t₂.c_cc, b < 256)
    (g7 : t₂.c_ispeed < 2 ^ 64) (g8 : t₂.c_ospeed < 2 ^ 64) :
    parseTermios .linux (writeTermios .linux t₁ buf₁) = t₁ ∧
    ((parseTermios .darwin (writeTermios .darwin t₂ buf₂)).c_iflag = t₂.c_iflag ∧
      (parseTermios .darwin (writeTermios .darwin t₂ buf₂)).c_oflag = t₂.c_oflag ∧
      (parseTermios .darwin (writeTermios .darwin t₂ buf₂)).c_cflag = t₂.c_cflag ∧
      (parseTermios .darwin (writeTermios .darwin t₂ buf₂)).c_lflag = t₂.c_lflag ∧
      (parseTermios .darwin (writeTermios .darwin t₂ buf₂)).c_cc = t₂.c_cc ∧
      (parseTermios .darwin (writeTermios .darwin t₂ buf₂)).c_ispeed = t₂.c_ispeed ∧
      (parseTermios .darwin (writeTermios .darwin t₂ buf₂)).c_ospeed = t₂.c_ospeed) ∧
    (∀ j, 44 ≤ j → writeTermios .linux t₁ buf₁ j = buf₁ j) ∧
    (∀ j, 52 ≤ j → j < 56 → writeTermios .darwin t₂ buf₂ j = buf₂ j) :=
  ⟨parse_write_linux t₁ buf₁ h1 h2 h3 h4 h5 h6 h7 h8 h9,
    parse_write_darwin t₂ buf₂ g1 g2 g3 g4 g5 g6 g7 g8,
    write_frame_linux t₁ buf₁ h6,
    write_frame_darwin t₂ buf₂ g5⟩

/-- Witness for C3: the round-trip and frame property at two concrete
termios values over the all-zero buffer. -/
theorem termios_codec_roundtrip_witness :
    (exTermiosLinux.c_iflag < 2 ^ 32 ∧ exTermiosLinux.c_line < 256 ∧
      exTermiosLinux.c_cc.length = 19 ∧ (∀ b ∈ exTermiosLinux.c_cc, b < 256) ∧
      exTermiosDarwin.c_cflag < 2 ^ 64 ∧ exTermiosDarwin.c_cc.length = 20 ∧
      (∀ b ∈ exTermiosDarwin.c_cc, b < 256)) ∧
    (parseTermios .linux (writeTermios .linux exTermiosLinux zeroBuf) = exTermiosLinux ∧
      ((parseTermios .darwin (writeTermios .darwin exTermiosDarwin zeroBuf)).c_iflag
          = exTermiosDarwin.c_iflag ∧
        (parseTermios .darwin (writeTermios .darwin exTermiosDarwin zeroBuf)).c_oflag
          = exTermiosDarwin.c_oflag ∧
        (parseTermios .darwin (writeTermios .darwin exTermiosDarwin zeroBuf)).c_cflag
          = exTermiosDarwin.c_cflag ∧
        (parseTermios .darwin (writeTermios .darwin exTermiosDarwin zeroBuf)).c_lflag
          = exTermiosDarwin.c_lflag ∧
        (parseTermios .darwin (writeTermios .darwin exTermiosDarwin zeroBuf)).c_cc
          = exTermiosDarwin.c_cc ∧
        (parseTermios .darwin (writeTermios .darwin exTermiosDarwin zeroBuf)).c_ispeed
          = exTermiosDarwin.c_ispeed ∧
        (parseTermios .darwin (writeTermios .darwin exTermiosDarwin zeroBuf)).c_ospeed
          = exTermiosDarwin.c_ospeed) ∧
      (∀ j, 44 ≤ j → writeTermios .linux exTermiosLinux zeroBuf j = zeroBuf j) ∧
      (∀ j, 52 ≤ j → j < 56 → writeTermios .darwin exTermiosDarwin zeroBuf j = zeroBuf j)) :=
  ⟨⟨by decide, by decide, by decide, by decide, by decide, by decide, by decide⟩,
    termios_codec_roundtrip exTermiosLinux zeroBuf (by decide) (by decide) (by decide)
      (by decide) (by decide) (by decide) (by decide) (by decide) (by decide)
      exTermiosDarwin zeroBuf (by decide) (by decide) (by decide) (by decide)
      (by decide) (by decide) (by decide) (by decide)⟩

/-! ### Bitwise algebra for `makeRaw` idempotence -/

/-- `bnot32` always lands below `2 ^ 32`. -/
theorem bnot32_lt (m : Nat) : bnot32 m < 2 ^ 32 := by
  apply Nat.lt_pow_two_of_testBit
  intro i hi
  have hpow : 2 ^ 32 ≤ 2 ^ i := Nat.pow_le_pow_right (by norm_num) hi
  have e1 : Nat.testBit (2 ^ 32 - 1) i = false :=
    Nat.testBit_lt_two_pow (by omega)
  have e2 : Nat.testBit (m % 2 ^ 32) i = false :=
    Nat.testBit_lt_two_pow (by
      have := Nat.mod_lt m (show 0 < 2 ^ 32 by norm_num)
      omega)
  unfold bnot32
  rw [Nat.testBit_xor, e1, e2]
  rfl

/-- Clearing the same mask twice is the same as clearing it once. -/
theorem land32_idem (x m : Nat) : land32 (land32 x m) m = land32 x m := by
  unfold land32
  have hlt : (x % 2 ^ 32) &&& (m % 2 ^ 32) < 2 ^ 32 :=
    Nat.and_lt_two_pow _ (Nat.mod_lt _ (by norm_num))
  rw [Nat.mod_eq_of_lt hlt, Nat.and_assoc, Nat.and_self]

/-- Distribution of bitwise and over or on `Nat`, right-hand form. -/
theorem nat_and_or_right (a b c : Nat) : (a ||| b) &&& c = (a &&& c) ||| (b &&& c) := by
  rw [Nat.and_comm, Nat.and_or_distrib_left, Nat.and_comm c a, Nat.and_comm c b]

/-- The clear-then-set step of `makeRaw` on c_cflag is idempotent whenever
the set bits lie inside the cleared mask. -/
theorem clearSet32_idem (x m s : Nat) (hs : s < 2 ^ 32)
    (h : s &&& bnot32 m = 0) :
    lor32 (land32 (lor32 (land32 x (bnot32 m)) s) (bnot32 m)) s
      = lor32 (land32 x (bnot32 m)) s := by
  have hC : bnot32 m < 2 ^ 32 := bnot32_lt m
  have hCm : bnot32 m % 2 ^ 32 = bnot32 m := Nat.mod_eq_of_lt hC
  have hsm : s % 2 ^ 32 = s := Nat.mod_eq_of_lt hs
  unfold land32 lor32
  rw [hCm, hsm]
  have hA : (x % 2 ^ 32) &&& bnot32 m < 2 ^ 32 := Nat.and_lt_two_pow _ hC
  rw [Nat.mod_eq_of_lt hA]
  have hB : ((x % 2 ^ 32) &&& bnot32 m) ||| s < 2 ^ 32 := Nat.or_lt_two_pow hA hs
  rw [Nat.mod_eq_of_lt hB, nat_and_or_right, h, Nat.or_zero, Nat.and_assoc,
    Nat.and_self,
    Nat.mod_eq_of_lt hA]

/-- The VMIN/VTIME writes of `makeRaw` are idempotent. -/
theorem set_raw_cc_idem (l : List Nat) :
    (((l.set VMIN 0).set VTIME 0).set VMIN 0).set VTIME 0
      = (l.set VMIN 0).set VTIME 0 := by
  simp only [VMIN, VTIME]
  rw [show ((l.set 6 0).set 5 0).set 6 0 = ((l.set 6 0).set 6 0).set 5 0 from
    List.set_comm _ _ _ (by omega), List.set_set, List.set_set]

/-- C9: makeRaw is idempotent — applying it twice yields the same
attribute values (in particular all four mode fields and the VMIN/VTIME
control characters) as applying it once, on either platform. -/
theorem makeRaw_idem (p : Platform) (t : Termios) :
    makeRaw p (makeRaw p t) = makeRaw p t := by
  obtain ⟨tif, tof, tcf, tlf, tline, tcc, tis, tos⟩ := t
  simp only [makeRaw, Termios.mk.injEq]
  refine ⟨land32_idem _ _, land32_idem _ _, ?_, land32_idem _ _, trivial,
    set_raw_cc_idem _, trivial, trivial⟩
  exact clearSet32_idem tcf (CSIZE p ||| PARENB p) (CS8 p)
    (by cases p <;> decide) (by cases p <;> decide)

/-! ### The baud-rate encode function -/

/-- Membership in an association list with distinct keys determines the
lookup. -/
theorem lookup_of_mem_keys_nodup (l : List (Nat × Nat))
    (hnd : (l.map Prod.fst).Nodup) {r v : Nat} (hm : (r, v) ∈ l) :
    l.lookup r = some v := by
  induction l with
  | nil => simp at hm
  | cons a as ih =>
    obtain ⟨k, w⟩ := a
    simp only [List.map_cons, List.nodup_cons] at hnd
    rcases List.mem_cons.mp hm with heq | hmem
    · injection heq with h1 h2
      subst h1
      subst h2
      simp [List.lookup]
    · have hne : r ≠ k := by
        intro hrk
        subst hrk
        exact hnd.1 (by
          have : Prod.fst (r, v) ∈ as.map Prod.fst := List.mem_map_of_mem _ hmem
          simpa using this)
      have hbeq : (r == k) = false := by simpa using hne
      simp only [List.lookup, hbeq]
      exact ih hnd.2 hmem

/-- A key absent from an association list looks up to nothing. -/
theorem lookup_eq_none_of_not_mem (l : List (Nat × Nat)) (r : Nat)
    (h : r ∉ l.map Prod.fst) : l.lookup r = none := by
  induction l with
  | nil => rfl
  | cons a as ih =>
    obtain ⟨k, v⟩ := a
    simp only [List.map_cons, List.mem_cons] at h
    push_neg at h
    obtain ⟨h1, h2⟩ := h
    have hbeq : (r == k) = false := by simpa using h1
    simp only [List.lookup, hbeq]
    exact ih h2

/-- C7: For every portable baud rate, the encode function returns the
platform table entry when the rate is tabulated (0 through 230400); for a
rate absent from the table it returns the literal rate on Darwin and fails
with the unsupported-baud-rate error on Linux. -/
theorem baud_encode_spec (p : Platform) (r : Nat) :
    (∀ v, (r, v) ∈ baudRateMap p → getBaudRateValue p r = .ok v) ∧
    (r ∉ (baudRateMap p).map Prod.fst →
      (p = .darwin → getBaudRateValue p r = .ok r) ∧
      (p = .linux → getBaudRateValue p r = .error "Unsupported baud rate")) := by
  constructor
  · intro v hv
    have hl : (baudRateMap p).lookup r = some v :=
      lookup_of_mem_keys_nodup _ (by cases p <;> decide) hv
    rw [getBaudRateValue, hl]
  · intro h
    have hl : (baudRateMap p).lookup r = none := lookup_eq_none_of_not_mem _ _ h
    constructor <;> intro hp <;> subst hp <;> simp [getBaudRateValue, hl]

/-- Witness for C7: the tabulated rate 9600 and the untabulated rate 12345
on both platforms. -/
theorem baud_encode_spec_witness :
    ((9600, 0x000D) ∈ baudRateMap .linux ∧
      getBaudRateValue .linux 9600 = .ok 0x000D) ∧
    (12345 ∉ (baudRateMap .linux).map Prod.fst ∧
      getBaudRateValue .linux 12345 = .error "Unsupported baud rate" ∧
      getBaudRateValue .darwin 12345 = .ok 12345) :=
  ⟨⟨by decide, (baud_encode_spec .linux 9600).1 0x000D (by decide)⟩,
    ⟨by decide, ((baud_encode_spec .linux 12345).2 (by decide)).2 rfl,
      ((baud_encode_spec .darwin 12345).2 (by decide)).1 rfl⟩⟩

/-! ### Claim evaluations on the syscall wrappers and the session -/

/-- C1: the claim says a read/write failing with the platform would-block
errno (11 on Linux, 35 on Darwin) returns 0 bytes instead of raising, on
both platforms.  Evaluating the wrappers: only errno 11 is translated, on
either platform; on Darwin the would-block errno 35 is thrown — the code
contradicts the claim (and its own `ERRNO.EAGAIN_MACOS` definition) on
Darwin, while the Linux half holds. -/
theorem c1_wouldBlock_eval :
    readWrapper .linux (-1) ERRNO_EAGAIN = .ok 0 ∧
    writeWrapper .linux (-1) ERRNO_EAGAIN = .ok 0 ∧
    readWrapper .darwin (-1) ERRNO_EAGAIN_MACOS = .error ERRNO_EAGAIN_MACOS ∧
    writeWrapper .darwin (-1) ERRNO_EAGAIN_MACOS = .error ERRNO_EAGAIN_MACOS ∧
    readWrapper .darwin (-1) ERRNO_EAGAIN = .ok 0 ∧
    writeWrapper .darwin (-1) ERRNO_EAGAIN = .ok 0 := by
  decide

/-- C2: the claim (and the repository's own macOS test) says a mark/space
parity request on Darwin fails with InvalidConfiguration before any kernel
syscall.  Evaluating the code: `validateOptions` accepts mark and space on
Darwin, and an `open()` on Darwin with mark parity issues the `open`
syscall, the TIOCEXCL ioctl and `tcgetattr` before the
INVALID_CONFIGURATION error is raised (the descriptor is then closed and
no `tcsetattr` is issued); on Linux the same request succeeds, setting
PARENB, the appropriate PARODD value and CMSPAR. -/
theorem c2_markParity_eval :
    validateOptions .darwin markOpts = .ok () ∧
    validateOptions .darwin spaceOpts = .ok () ∧
    (openPort .darwin markOpts allOkEnv closedSession).2.2
      = some (.serialErr .INVALID_CONFIGURATION) ∧
    Syscall.sysOpen ∈ (openPort .darwin markOpts allOkEnv closedSession).2.1 ∧
    Syscall.sysIoctl .TIOCEXCL ∈ (openPort .darwin markOpts allOkEnv closedSession).2.1 ∧
    Syscall.sysTcgetattr ∈ (openPort .darwin markOpts allOkEnv closedSession).2.1 ∧
    Syscall.sysTcsetattr ∉ (openPort .darwin markOpts allOkEnv closedSession).2.1 ∧
    Syscall.sysClose 3 ∈ (openPort .darwin markOpts allOkEnv closedSession).2.1 ∧
    (openPort .darwin markOpts allOkEnv closedSession).1.fd = none ∧
    (openPort .linux markOpts allOkEnv closedSession).2.2 = none ∧
    (openPort .linux spaceOpts allOkEnv closedSession).2.2 = none ∧
    isOkConfig (applyConfig .linux markOpts (parseTermios .linux zeroBuf)) = true ∧
    land32 (cflagOf (applyConfig .linux markOpts (parseTermios .linux zeroBuf)))
      (PARENB .linux) ≠ 0 ∧
    land32 (cflagOf (applyConfig .linux markOpts (parseTermios .linux zeroBuf)))
      (PARODD .linux) ≠ 0 ∧
    land32 (cflagOf (applyConfig .linux markOpts (parseTermios .linux zeroBuf)))
      CMSPAR ≠ 0 ∧
    isOkConfig (applyConfig .linux spaceOpts (parseTermios .linux zeroBuf)) = true ∧
    land32 (cflagOf (applyConfig .linux spaceOpts (parseTermios .linux zeroBuf)))
      (PARENB .linux) ≠ 0 ∧
    land32 (cflagOf (applyConfig .linux spaceOpts (parseTermios .linux zeroBuf)))
      (PARODD .linux) = 0 ∧
    land32 (cflagOf (applyConfig .linux spaceOpts (parseTermios .linux zeroBuf)))
      CMSPAR ≠ 0 := by
  decide

/-- C10: calling open() on an already-open session returns immediately
with no syscall, no error and the entire session state unchanged. -/
theorem open_when_open_noop (p : Platform) (o : Options) (env : OpenEnv)
    (s : SessionState) (h : s.isOpen = true) :
    openPort p o env s = (s, [], none) := by
  simp [openPort, h]

/-- Witness for C10 at a concrete open session. -/
theorem open_when_open_noop_witness :
    openSession.isOpen = true ∧
    openPort .linux baseOpts allOkEnv openSession = (openSession, [], none) :=
  ⟨rfl, open_when_open_noop .linux baseOpts allOkEnv openSession rfl⟩

/-- C5: on a session that is not open (isOpen false or fd null), each of
read, write, flush, drain, sendBreak, getSignals and setSignals raises
PORT_CLOSED without invoking any syscall-bridge function. -/
theorem closed_ops_guard (p : Platform) (o : Options) (s : SessionState)
    (h : s.isOpen = false ∨ s.fd = none)
    (att : IOAttempt) (size : Option Nat) (attempts : List IOAttempt)
    (data : List Nat) (direction : FlushDir) (fr dr br : Option Nat)
    (mget : Except Nat Nat) (mset : Option Nat) (req : SetSignalsReq) :
    readPort p o s att size = ([], .error (.serialErr .PORT_CLOSED)) ∧
    writePort p s attempts data = ([], .error (.serialErr .PORT_CLOSED)) ∧
    flushPort s direction fr = ([], .error (.serialErr .PORT_CLOSED)) ∧
    drainPort s dr = ([], .error (.serialErr .PORT_CLOSED)) ∧
    sendBreakPort s br = ([], .error (.serialErr .PORT_CLOSED)) ∧
    getSignalsPort p s mget = ([], .error (.serialErr .PORT_CLOSED)) ∧
    setSignalsPort p s req mget mset = ([], .error (.serialErr .PORT_CLOSED)) := by
  refine ⟨?_, ?_, ?_, ?_, ?_, ?_, ?_⟩
  · rw [readPort.eq_def, if_pos h]
  · rw [writePort, if_pos h]
  · rw [flushPort.eq_def, if_pos h]
  · rw [drainPort.eq_def, if_pos h]
  · rw [sendBreakPort.eq_def, if_pos h]
  · rw [getSignalsPort.eq_def, if_pos h]
  · rw [setSignalsPort.eq_def, if_pos h]

/-- Witness for C5 at the freshly constructed closed session. -/
theorem closed_ops_guard_witness :
    (closedSession.isOpen = false ∨ closedSession.fd = none) ∧
    (readPort .linux baseOpts closedSession ⟨-1, 11, []⟩ none
        = ([], .error (.serialErr .PORT_CLOSED)) ∧
      writePort .linux closedSession [] [1, 2, 3]
        = ([], .error (.serialErr .PORT_CLOSED)) ∧
      flushPort closedSession .both none
        = ([], .error (.serialErr .PORT_CLOSED)) ∧
      drainPort closedSession none = ([], .error (.serialErr .PORT_CLOSED)) ∧
      sendBreakPort closedSession none = ([], .error (.serialErr .PORT_CLOSED)) ∧
      getSignalsPort .linux closedSession (.ok 0)
        = ([], .error (.serialErr .PORT_CLOSED)) ∧
      setSignalsPort .linux closedSession ⟨some true, some false⟩ (.ok 0) none
        = ([], .error (.serialErr .PORT_CLOSED))) :=
  ⟨Or.inl rfl,
    closed_ops_guard .linux baseOpts closedSession (Or.inl rfl) ⟨-1, 11, []⟩
      none [] [1, 2, 3] .both none none none (.ok 0) none ⟨some true, some false⟩⟩

/-- C6: on an open Darwin session, getSignals returns the all-false
snapshot with no ioctl and never throws, and setSignals silently performs
no ioctl and never throws, for every hardware state and every partial
DTR/RTS request. -/
theorem darwin_signals_spec (s : SessionState) (fd : Nat)
    (h1 : s.isOpen = true) (h2 : s.fd = some fd)
    (mget : Except Nat Nat) (mset : Option Nat) (req : SetSignalsReq) :
    getSignalsPort .darwin s mget
      = ([], .ok { cts := false, dsr := false, dcd := false, ring := false }) ∧
    setSignalsPort .darwin s req mget mset = ([], .ok ()) := by
  constructor <;> simp [getSignalsPort, setSignalsPort, h1, h2]

/-- Witness for C6 at a concrete open session, a failing hardware ioctl
outcome and a concrete request. -/
theorem darwin_signals_spec_witness :
    (openSession.isOpen = true ∧ openSession.fd = some 3) ∧
    (getSignalsPort .darwin openSession (.error 25)
        = ([], .ok { cts := false, dsr := false, dcd := false, ring := false }) ∧
      setSignalsPort .darwin openSession ⟨some true, some false⟩ (.error 25) (some 25)
        = ([], .ok ())) :=
  ⟨⟨rfl, rfl⟩,
    darwin_signals_spec openSession 3 rfl rfl (.error 25) (some 25)
      ⟨some true, some false⟩⟩

/-- The catch tail always nulls the descriptor, closes the one it was
given and reports an error. -/
theorem openCatch_spec (s : SessionState) (g : Nat) (tr : List Syscall)
    (t : Thrown) :
    (openCatch s (some g) tr t).1.fd = none ∧
    (openCatch s (some g) tr t).1.isOpen = s.isOpen ∧
    Syscall.sysClose g ∈ (openCatch s (some g) tr t).2.1 := by
  simp [openCatch]

/-- C4: every execution of open() that raises an error after the device
descriptor was obtained closes that descriptor before the error
propagates, leaves fd null and isOpen false; in particular a denied
exclusive lock fails with ACCESS_DENIED. -/
theorem open_failure_cleanup (p : Platform) (o : Options) (env : OpenEnv)
    (s : SessionState) (fd : Nat) (e : Thrown)
    (hopen : env.openResult = .ok fd)
    (herr : (openPort p o env s).2.2 = some e) :
    Syscall.sysClose fd ∈ (openPort p o env s).2.1 ∧
    (openPort p o env s).1.fd = none ∧
    (openPort p o env s).1.isOpen = false ∧
    (o.lock = true → env.lockResult.isSome = true →
      e = .serialErr .ACCESS_DENIED) := by
  by_cases hio : s.isOpen = true
  · simp [openPort, hio] at herr
  · have hio' : s.isOpen = false := by
      revert hio; cases s.isOpen <;> simp
    revert herr
    simp only [openPort, hio', Bool.false_eq_true, if_false, hopen]
    split
    · intro herr
      simp only [Option.some.injEq] at herr
      subst herr
      exact ⟨by simp, rfl, by simp [hio'], fun _ _ => rfl⟩
    · rename_i hcond
      split
      · intro _
        refine ⟨by simp [openCatch], by simp [openCatch],
          by simp [openCatch, hio'], fun hL hR => absurd ⟨hL, hR⟩ hcond⟩
      · split
        · intro _
          refine ⟨by simp [openCatch], by simp [openCatch],
            by simp [openCatch, hio'], fun hL hR => absurd ⟨hL, hR⟩ hcond⟩
        · intro herr
          simp at herr

/-- Witness for C4: a denied exclusive lock on an otherwise healthy open
closes descriptor 3, nulls fd, leaves the session closed and fails with
ACCESS_DENIED. -/
theorem open_failure_cleanup_witness :
    (lockDeniedEnv.openResult = .ok 3 ∧
      (openPort .linux baseOpts lockDeniedEnv closedSession).2.2
        = some (.serialErr .ACCESS_DENIED)) ∧
    (Syscall.sysClose 3 ∈ (openPort .linux baseOpts lockDeniedEnv closedSession).2.1 ∧
      (openPort .linux baseOpts lockDeniedEnv closedSession).1.fd = none ∧
      (openPort .linux baseOpts lockDeniedEnv closedSession).1.isOpen = false ∧
      (baseOpts.lock = true → lockDeniedEnv.lockResult.isSome = true →
        Thrown.serialErr .ACCESS_DENIED = .serialErr .ACCESS_DENIED)) :=
  ⟨⟨rfl, by decide⟩,
    open_failure_cleanup .linux baseOpts lockDeniedEnv closedSession 3
      (.serialErr .ACCESS_DENIED) rfl (by decide)⟩

/-! ### The delimiter parser -/

/-- The inner matching loop succeeds exactly on prefixes. -/
theorem headMatches_iff (d l : List Nat) : headMatches d l = true ↔ d <+: l := by
  induction d generalizing l with
  | nil => simp [headMatches]
  | cons a ds ih =>
    cases l with
    | nil => simp [headMatches]
    | cons b ls => simp [headMatches, ih, List.cons_prefix_cons]

/-- A position found by the scanning loop carries a delimiter match. -/
theorem indexOfCore_prefix (d : List Nat) :
    ∀ (b : List Nat) (pos : Nat), indexOfCore d b = some pos → d <+: b.drop pos := by
  intro b
  induction b with
  | nil => intro pos h; simp [indexOfCore] at h
  | cons x bs ih =>
    intro pos h
    by_cases hm : headMatches d (x :: bs) = true
    · rw [indexOfCore, if_pos hm] at h
      obtain rfl : (0 : Nat) = pos := by injection h
      exact (headMatches_iff _ _).mp hm
    · rw [indexOfCore, if_neg hm] at h
      obtain ⟨q, hq, hpos⟩ := Option.map_eq_some'.mp h
      subst hpos
      simpa using ih q hq

/-- `indexOf [] d` always reports no match. -/
theorem indexOf_nil (d : List Nat) : indexOf [] d = none := by
  rw [indexOf]
  by_cases h : d.length = 0
  · rw [if_pos h]
  · rw [if_neg h, if_pos (by simpa using Nat.pos_of_ne_zero h)]

/-- What a successful `indexOf` guarantees: a nonempty delimiter, a match
within bounds, and the match itself. -/
theorem indexOf_some {b d : List Nat} {pos : Nat} (h : indexOf b d = some pos) :
    0 < d.length ∧ pos + d.length ≤ b.length ∧ d <+: b.drop pos := by
  rw [indexOf] at h
  by_cases h1 : d.length = 0
  · rw [if_pos h1] at h; cases h
  · rw [if_neg h1] at h
    by_cases h2 : b.length < d.length
    · rw [if_pos h2] at h; cases h
    · rw [if_neg h2] at h
      have hp := indexOfCore_prefix d b pos h
      have hlen := hp.length_le
      rw [List.length_drop] at hlen
      exact ⟨by omega, by omega, hp⟩

/-- A prefix short enough to fit in the left part of an append is a
prefix of the left part. -/
theorem prefix_append_iff_of_le {d b : List Nat} (c : List Nat)
    (h : d.length ≤ b.length) : d <+: b ++ c ↔ d <+: b := by
  constructor
  · intro hp
    rw [List.prefix_iff_eq_take] at hp ⊢
    rwa [List.take_append_of_le_length h] at hp
  · intro hp
    exact hp.trans (b.prefix_append c)

/-- Appending input to the right does not move the first match found by
the scanning loop. -/
theorem indexOfCore_append {d : List Nat} :
    ∀ (b : List Nat) (pos : Nat), indexOfCore d b = some pos →
      ∀ c, indexOfCore d (b ++ c) = some pos := by
  intro b
  induction b with
  | nil => intro pos h; simp [indexOfCore] at h
  | cons x bs ih =>
    intro pos h c
    rw [List.cons_append]
    by_cases hm : headMatches d (x :: bs) = true
    · rw [indexOfCore, if_pos hm] at h
      have hp : d <+: x :: bs := (headMatches_iff _ _).mp hm
      have hm2 : headMatches d (x :: (bs ++ c)) = true := by
        rw [headMatches_iff, show x :: (bs ++ c) = (x :: bs) ++ c from rfl]
        exact hp.trans (List.prefix_append _ _)
      rw [indexOfCore, if_pos hm2]
      exact h
    · rw [indexOfCore, if_neg hm] at h
      obtain ⟨q, hq, hpos⟩ := Option.map_eq_some'.mp h
      have hp := indexOfCore_prefix d bs q hq
      have hdlen : 0 < d.length := by
        rcases d with _ | _
        · simp [headMatches] at hm
        · simp
      have hlen : d.length ≤ bs.length := by
        have h1 := hp.length_le
        rw [List.length_drop] at h1
        omega
      have hm2 : ¬headMatches d (x :: (bs ++ c)) = true := by
        rw [headMatches_iff, show x :: (bs ++ c) = (x :: bs) ++ c from rfl]
        intro hcontra
        rw [prefix_append_iff_of_le c (by simp; omega)] at hcontra
        exact hm ((headMatches_iff _ _).mpr hcontra)
      rw [indexOfCore, if_neg hm2, ih q hq c]
      simpa using hpos

/-- Appending input to the right does not move the first delimiter
occurrence. -/
theorem indexOf_append {b d : List Nat} {pos : Nat}
    (h : indexOf b d = some pos) (c : List Nat) :
    indexOf (b ++ c) d = some pos := by
  obtain ⟨hd, hlen, _⟩ := indexOf_some h
  rw [indexOf] at h
  rw [if_neg (by omega)] at h
  rw [if_neg (by omega)] at h
  rw [indexOf, if_neg (by omega), if_neg (by rw [List.length_append]; omega)]
  exact indexOfCore_append b pos h c

/-- The emission loop does nothing when the buffer holds no delimiter. -/
theorem scanLoop_none {d : List Nat} {inc : Bool} {b : List Nat}
    (h : indexOf b d = none) : scanLoop d inc b = ([], b) := by
  unfold scanLoop
  split
  · rfl
  · rename_i pos heq
    rw [h] at heq
    cases heq

/-- One step of the emission loop when the buffer holds a delimiter. -/
theorem scanLoop_some {d : List Nat} {inc : Bool} {b : List Nat} {pos : Nat}
    (h : indexOf b d = some pos) :
    scanLoop d inc b =
      ((if 0 < (if inc then b.take (pos + d.length) else b.take pos).length ∨ inc = true
          then (if inc then b.take (pos + d.length) else b.take pos)
            :: (scanLoop d inc (b.drop (pos + d.length))).1
          else (scanLoop d inc (b.drop (pos + d.length))).1),
        (scanLoop d inc (b.drop (pos + d.length))).2) := by
  conv_lhs => rw [scanLoop]
  split
  · rename_i heq
    rw [h] at heq
    cases heq
  · rename_i pos' heq
    rw [h] at heq
    obtain rfl : pos = pos' := by injection heq
    rfl

/-- Scanning an appended input is scanning the first part and then
scanning its residual with the rest appended. -/
theorem scanLoop_append (d : List Nat) (inc : Bool) (b c : List Nat) :
    scanLoop d inc (b ++ c)
      = ((scanLoop d inc b).1 ++ (scanLoop d inc ((scanLoop d inc b).2 ++ c)).1,
          (scanLoop d inc ((scanLoop d inc b).2 ++ c)).2) := by
  suffices H : ∀ (n : Nat) (b c : List Nat), b.length ≤ n →
      scanLoop d inc (b ++ c)
        = ((scanLoop d inc b).1 ++ (scanLoop d inc ((scanLoop d inc b).2 ++ c)).1,
            (scanLoop d inc ((scanLoop d inc b).2 ++ c)).2) from
    H b.length b c le_rfl
  intro n
  induction n with
  | zero =>
    intro b c hb
    obtain rfl : b = [] := List.eq_nil_of_length_eq_zero (by omega)
    rw [scanLoop_none (indexOf_nil d)]
    simp
  | succ n ihn =>
    intro b c hb
    cases hic : indexOf b d with
    | none =>
      rw [scanLoop_none hic]
      simp
    | some pos =>
      obtain ⟨hd, hlen, _⟩ := indexOf_some hic
      have hic2 : indexOf (b ++ c) d = some pos := indexOf_append hic c
      rw [scanLoop_some hic, scanLoop_some hic2]
      rw [List.take_append_of_le_length (by omega : pos + d.length ≤ b.length),
        List.take_append_of_le_length (by omega : pos ≤ b.length),
        List.drop_append_of_le_length (by omega : pos + d.length ≤ b.length)]
      rw [ihn (b.drop (pos + d.length)) c (by rw [List.length_drop]; omega)]
      split_ifs <;> simp

/-- The residual of the emission loop holds no delimiter and never grows. -/
theorem scanLoop_residual (d : List Nat) (inc : Bool) (b : List Nat) :
    indexOf (scanLoop d inc b).2 d = none ∧
      (scanLoop d inc b).2.length ≤ b.length := by
  suffices H : ∀ (n : Nat) (b : List Nat), b.length ≤ n →
      indexOf (scanLoop d inc b).2 d = none ∧
        (scanLoop d inc b).2.length ≤ b.length from
    H b.length b le_rfl
  intro n
  induction n with
  | zero =>
    intro b hb
    obtain rfl : b = [] := List.eq_nil_of_length_eq_zero (by omega)
    rw [scanLoop_none (indexOf_nil d)]
    exact ⟨indexOf_nil d, le_rfl⟩
  | succ n ihn =>
    intro b hb
    cases hic : indexOf b d with
    | none =>
      rw [scanLoop_none hic]
      exact ⟨hic, le_rfl⟩
    | some pos =>
      obtain ⟨hd, hlen, _⟩ := indexOf_some hic
      rw [scanLoop_some hic]
      have hdrop : (b.drop (pos + d.length)).length ≤ n := by
        rw [List.length_drop]; omega
      obtain ⟨r1, r2⟩ := ihn (b.drop (pos + d.length)) hdrop
      rw [List.length_drop] at r2
      refine ⟨r1, ?_⟩
      show (scanLoop d inc (b.drop (pos + d.length))).2.length ≤ b.length
      omega

/-- Unfolding `pushAll` over one successfully processed chunk. -/
theorem pushAll_cons_ok {d : List Nat} {inc : Bool} {maxB : Nat}
    {b ch : List Nat} {cs : List (List Nat)} {fs : List (List Nat)}
    {b2 : List Nat} (hmax : ¬maxB < (b ++ ch).length)
    (hsc : scanLoop d inc (b ++ ch) = (fs, b2)) :
    pushAll d inc maxB b (ch :: cs)
      = match pushAll d inc maxB b2 cs with
        | .error e => .error e
        | .ok (fs', b'') => .ok (fs ++ fs', b'') := by
  simp only [pushAll, processChunk]
  rw [if_neg hmax, hsc]

/-- Feeding chunks one by one through `processChunk` emits exactly what
one scan of the concatenated input emits, as long as the concatenated
input fits under the buffer cap and the starting buffer is a residual. -/
theorem pushAll_eq (d : List Nat) (inc : Bool) (maxB : Nat) :
    ∀ (chunks : List (List Nat)) (b : List Nat),
      indexOf b d = none →
      b.length + (chunks.map List.length).sum ≤ maxB →
      pushAll d inc maxB b chunks
        = .ok ((scanLoop d inc (b ++ chunks.flatten)).1,
            (scanLoop d inc (b ++ chunks.flatten)).2) := by
  intro chunks
  induction chunks with
  | nil =>
    intro b hb hlen
    simp only [pushAll, List.flatten_nil, List.append_nil]
    rw [scanLoop_none hb]
  | cons ch cs ih =>
    intro b hb hlen
    simp only [List.map_cons, List.sum_cons] at hlen
    rcases hsc : scanLoop d inc (b ++ ch) with ⟨fs, b2⟩
    obtain ⟨hres, hlen2⟩ := scanLoop_residual d inc (b ++ ch)
    rw [hsc] at hres hlen2
    simp only at hres hlen2
    rw [List.length_append] at hlen2
    rw [pushAll_cons_ok (by rw [List.length_append]; omega) hsc]
    rw [ih b2 hres (by omega)]
    rw [List.flatten_cons, ← List.append_assoc, scanLoop_append d inc (b ++ ch)
      cs.flatten, hsc]

/-- The scan of the claim's input with delimiters excluded. -/
theorem scan_eval_false :
    scanLoop (strBytes "|") false (strBytes "hello|world|foo|bar|")
      = ([strBytes "hello", strBytes "world", strBytes "foo", strBytes "bar"],
          []) := by
  rw [scanLoop_some (show indexOf (strBytes "hello|world|foo|bar|")
    (strBytes "|") = some 5 by decide)]
  rw [show (strBytes "hello|world|foo|bar|").drop (5 + (strBytes "|").length)
    = strBytes "world|foo|bar|" from by decide]
  rw [scanLoop_some (show indexOf (strBytes "world|foo|bar|")
    (strBytes "|") = some 5 by decide)]
  rw [show (strBytes "world|foo|bar|").drop (5 + (strBytes "|").length)
    = strBytes "foo|bar|" from by decide]
  rw [scanLoop_some (show indexOf (strBytes "foo|bar|")
    (strBytes "|") = some 3 by decide)]
  rw [show (strBytes "foo|bar|").drop (3 + (strBytes "|").length)
    = strBytes "bar|" from by decide]
  rw [scanLoop_some (show indexOf (strBytes "bar|")
    (strBytes "|") = some 3 by decide)]
  rw [show (strBytes "bar|").drop (3 + (strBytes "|").length)
    = ([] : List Nat) from by decide]
  rw [scanLoop_none (show indexOf ([] : List Nat) (strBytes "|") = none
    from by decide)]
  decide

/-- The scan of the claim's input with delimiters included. -/
theorem scan_eval_true :
    scanLoop (strBytes "|") true (strBytes "hello|world|foo|bar|")
      = ([strBytes "hello|", strBytes "world|", strBytes "foo|",
          strBytes "bar|"], []) := by
  rw [scanLoop_some (show indexOf (strBytes "hello|world|foo|bar|")
    (strBytes "|") = some 5 by decide)]
  rw [show (strBytes "hello|world|foo|bar|").drop (5 + (strBytes "|").length)
    = strBytes "world|foo|bar|" from by decide]
  rw [scanLoop_some (show indexOf (strBytes "world|foo|bar|")
    (strBytes "|") = some 5 by decide)]
  rw [show (strBytes "world|foo|bar|").drop (5 + (strBytes "|").length)
    = strBytes "foo|bar|" from by decide]
  rw [scanLoop_some (show indexOf (strBytes "foo|bar|")
    (strBytes "|") = some 3 by decide)]
  rw [show (strBytes "foo|bar|").drop (3 + (strBytes "|").length)
    = strBytes "bar|" from by decide]
  rw [scanLoop_some (show indexOf (strBytes "bar|")
    (strBytes "|") = some 3 by decide)]
  rw [show (strBytes "bar|").drop (3 + (strBytes "|").length)
    = ([] : List Nat) from by decide]
  rw [scanLoop_none (show indexOf ([] : List Nat) (strBytes "|") = none
    from by decide)]
  decide

/-- C8: a DelimiterParser with delimiter "|" and includeDelimiter=false,
fed "hello|world|foo|bar|" in one or several chunks, emits exactly
["hello","world","foo","bar"]; with includeDelimiter=true it emits exactly
["hello|","world|","foo|","bar|"] — each frame the buffer prefix up to
(respectively through) the first delimiter occurrence, the consumed prefix
removed from the buffer (which ends empty). -/
theorem delimiter_frames (chunks : List (List Nat))
    (h : chunks.flatten = strBytes "hello|world|foo|bar|") :
    pushAll (strBytes "|") false 65536 [] chunks
      = .ok ([strBytes "hello", strBytes "world", strBytes "foo",
          strBytes "bar"], []) ∧
    pushAll (strBytes "|") true 65536 [] chunks
      = .ok ([strBytes "hello|", strBytes "world|", strBytes "foo|",
          strBytes "bar|"], []) := by
  have hlen : ([] : List Nat).length + (chunks.map List.length).sum ≤ 65536 := by
    have h2 : (chunks.map List.length).sum
        = (strBytes "hello|world|foo|bar|").length := by
      rw [← List.length_flatten, h]
    simp [h2, strBytes]
  constructor
  · rw [pushAll_eq _ _ _ chunks [] (indexOf_nil _) hlen, List.nil_append, h,
      scan_eval_false]
  · rw [pushAll_eq _ _ _ chunks [] (indexOf_nil _) hlen, List.nil_append, h,
      scan_eval_true]

/-- Witness for C8: the input split into two chunks, the split crossing a
delimiter boundary. -/
theorem delimiter_frames_witness :
    ([strBytes "hello|wor", strBytes "ld|foo|bar|"].flatten
        = strBytes "hello|world|foo|bar|") ∧
    (pushAll (strBytes "|") false 65536 []
        [strBytes "hello|wor", strBytes "ld|foo|bar|"]
      = .ok ([strBytes "hello", strBytes "world", strBytes "foo",
          strBytes "bar"], []) ∧
     pushAll (strBytes "|") true 65536 []
        [strBytes "hello|wor", strBytes "ld|foo|bar|"]
      = .ok ([strBytes "hello|", strBytes "world|", strBytes "foo|",
          strBytes "bar|"], [])) :=
  ⟨by decide, delimiter_frames [strBytes "hello|wor", strBytes "ld|foo|bar|"]
    (by decide)⟩

end SerialPort
